import Mathlib

/-!
# Glyph packing and scene state of `boilerplate.cpp`

A shallow embedding of the CPU side of the Bezier/glyph viewer: the two passes
over a glyph outline (`glyphCount`, `glyphToGeom`), the layout loops of the
glyph scenes, the key handler `KeyCallback`, and the per-frame scroll update of
`main`.

Arithmetic of the packer is kept abstract (any type with `+`, `*` and `0`), so
the packing theorems hold for every interpretation of the float operations.
The scene machine is embedded over the rationals: float rounding is not
modelled there.
-/

namespace IntroGraphics

/-! ## Outline data handed over by the glyph extractor -/

/-- Modelled from the spec: the segment type of `GlyphExtractor.h` (the header is
not among the sources). One Bezier piece of degree 1, 2 or 3 with up to four
control points, read by the code as `segment.degree`, `segment.x[k]`,
`segment.y[k]`. -/
structure MySegment (F : Type) where
  degree : Int
  x : Fin 4 → F
  y : Fin 4 → F

/-- Modelled from the spec: a contour of `GlyphExtractor.h` is an ordered
sequence of segments (`contour.size()`, `contour[seg]`). -/
abbrev MyContour (F : Type) := List (MySegment F)

/-- Modelled from the spec: the glyph of `GlyphExtractor.h`, an ordered sequence
of contours together with the horizontal advance. -/
structure MyGlyph (F : Type) where
  contours : List (MyContour F)
  advance : F

/-! ## Buffers and counters -/

/-- A float array addressed by index. Cells that the program has not written
hold whatever the initial content was. -/
abbrev Buffer (F : Type) := Nat → F

/-- The assignment `buf[i] = v`. -/
def store {F : Type} (buf : Buffer F) (i : Nat) (v : F) : Buffer F :=
  fun j => if j = i then v else buf j

/-- The three global counters `lineCount`, `quadraticCount`, `cubicCount`. They are
C `int`s that only ever grow from 0 in steps of 8, so naturals are used. -/
structure Counters where
  lineCount : Nat
  quadraticCount : Nat
  cubicCount : Nat

/-- What `glyphToGeom` works on: its three output arrays and the three global
write counters. -/
structure PackState (F : Type) extends Counters where
  verLines : Buffer F
  verQuad : Buffer F
  verCub : Buffer F

section Packer

variable {F : Type} [Add F] [Mul F] [Zero F]

/-- Body of the inner loop of `glyphCount`: one segment adds 8 to the counter of
its degree. -/
def countSegment (st : Counters) (segment : MySegment F) : Counters :=
  if segment.degree = 1 then
    { st with lineCount := st.lineCount + 8 }
  else if segment.degree = 2 then
    { st with quadraticCount := st.quadraticCount + 8 }
  else if segment.degree = 3 then
    { st with cubicCount := st.cubicCount + 8 }
  else st

/-- The counting pass `glyphCount`: contours in order, segments in order. -/
def glyphCount (glyph : MyGlyph F) (st : Counters) : Counters :=
  glyph.contours.foldl (fun st contour => contour.foldl countSegment st) st

/-- Body of the inner loop of `glyphToGeom`: the eight stores for one segment and
the counter increment, by degree. -/
def packSegment (scale xTrans yTrans : F) (st : PackState F)
    (segment : MySegment F) : PackState F :=
  if segment.degree = 1 then
    let c := st.lineCount
    let v := st.verLines
    let v := store v c ((segment.x 0 + xTrans) * scale)
    let v := store v (c + 1) ((segment.y 0 + yTrans) * scale)
    let v := store v (c + 2) ((segment.x 1 + xTrans) * scale)
    let v := store v (c + 3) ((segment.y 1 + yTrans) * scale)
    let v := store v (c + 4) ((0 + xTrans) * scale)
    let v := store v (c + 5) ((0 + yTrans) * scale)
    let v := store v (c + 6) ((0 + xTrans) * scale)
    let v := store v (c + 7) ((0 + yTrans) * scale)
    { st with verLines := v, lineCount := c + 8 }
  else if segment.degree = 2 then
    let c := st.quadraticCount
    let v := st.verQuad
    let v := store v c ((segment.x 0 + xTrans) * scale)
    let v := store v (c + 1) ((segment.y 0 + yTrans) * scale)
    let v := store v (c + 2) ((segment.x 1 + xTrans) * scale)
    let v := store v (c + 3) ((segment.y 1 + yTrans) * scale)
    let v := store v (c + 4) ((segment.x 2 + xTrans) * scale)
    let v := store v (c + 5) ((segment.y 2 + yTrans) * scale)
    let v := store v (c + 6) ((0 + xTrans) * scale)
    let v := store v (c + 7) ((0 + yTrans) * scale)
    { st with verQuad := v, quadraticCount := c + 8 }
  else if segment.degree = 3 then
    let c := st.cubicCount
    let v := st.verCub
    let v := store v c ((segment.x 0 + xTrans) * scale)
    let v := store v (c + 1) ((segment.y 0 + yTrans) * scale)
    let v := store v (c + 2) ((segment.x 1 + xTrans) * scale)
    let v := store v (c + 3) ((segment.y 1 + yTrans) * scale)
    let v := store v (c + 4) ((segment.x 2 + xTrans) * scale)
    let v := store v (c + 5) ((segment.y 2 + yTrans) * scale)
    let v := store v (c + 6) ((segment.x 3 + xTrans) * scale)
    let v := store v (c + 7) ((segment.y 3 + yTrans) * scale)
    { st with verCub := v, cubicCount := c + 8 }
  else st

/-- The fill pass `glyphToGeom`: contours in order, segments in order. -/
def glyphToGeom (glyph : MyGlyph F) (scale xTrans yTrans : F)
    (st : PackState F) : PackState F :=
  glyph.contours.foldl
    (fun st contour => contour.foldl (packSegment scale xTrans yTrans) st) st

/-! ### Reading the buffers back, and the record the data model describes -/

/-- The buffer of a degree: `verLines` for 1, `verQuad` for 2, `verCub` for 3. -/
def PackState.bufOf (st : PackState F) (d : Nat) : Buffer F :=
  if d = 1 then st.verLines else if d = 2 then st.verQuad else st.verCub

/-- The write counter of a degree. -/
def PackState.cntOf (st : PackState F) (d : Nat) : Nat :=
  if d = 1 then st.lineCount else if d = 2 then st.quadraticCount else st.cubicCount

/-- The `n` consecutive 2-float slots of a buffer that start at float index `lo`. -/
def slots (buf : Buffer F) (lo n : Nat) : List (F × F) :=
  (List.range n).map (fun k => (buf (lo + 2 * k), buf (lo + 2 * k + 1)))

/-- The pad point: the origin sent through the same translate-then-scale map. -/
def padPoint (scale xTrans yTrans : F) : F × F :=
  ((0 + xTrans) * scale, (0 + yTrans) * scale)

/-- A control point sent through the translate-then-scale map. -/
def mapPoint (scale xTrans yTrans : F) (px py : F) : F × F :=
  ((px + xTrans) * scale, (py + yTrans) * scale)

/-- The patch vertex record of the data model for a segment read at degree `d`:
the first `d + 1` control points, mapped, then `3 - d` pad points. -/
def patchRecord (scale xTrans yTrans : F) (d : Nat) (segment : MySegment F) :
    List (F × F) :=
  ((List.finRange 4).take (d + 1)).map
      (fun k => mapPoint scale xTrans yTrans (segment.x k) (segment.y k))
    ++ List.replicate (3 - d) (padPoint scale xTrans yTrans)

/-- The segments of a glyph that have degree `d`, contour by contour and, inside a
contour, segment by segment. -/
def segmentsOfDegree (glyph : MyGlyph F) (d : Nat) : List (MySegment F) :=
  glyph.contours.flatten.filter (fun s => decide (s.degree = (d : Int)))

end Packer

section Layout

variable {F : Type} [Add F] [Sub F] [Mul F] [Zero F]

/-- The glyph layout loop of keys 3, 4, 5 and 6, over the extracted glyphs in
string order: `glyphToGeom(.., scale, start + adv, yTrans); adv += glyph.advance - kern;`.
Returns the final `adv` and the arrays and counters. -/
def layoutKerned (scale start yTrans kern : F) (glyphs : List (MyGlyph F))
    (adv : F) (st : PackState F) : F × PackState F :=
  glyphs.foldl
    (fun p glyph =>
      (p.1 + (glyph.advance - kern), glyphToGeom glyph scale (start + p.1) yTrans p.2))
    (adv, st)

/-- The glyph layout loop of keys 7 and 8 and of start-up:
`glyphToGeom(.., scale, start + adv, yTrans); adv += glyph.advance;`. -/
def layoutPlain (scale start yTrans : F) (glyphs : List (MyGlyph F))
    (adv : F) (st : PackState F) : F × PackState F :=
  glyphs.foldl
    (fun p glyph =>
      (p.1 + glyph.advance, glyphToGeom glyph scale (start + p.1) yTrans p.2))
    (adv, st)

end Layout

/-! ## GPU buckets -/

/-- The error flags `glGetError` can hand to `CheckGLErrors`. -/
inductive GLError where
  | invalidEnum
  | invalidValue
  | invalidOperation
  | invalidFramebufferOperation
  | outOfMemory
  | unknown
  deriving DecidableEq, Repr

/-- The line `CheckGLErrors` prints for one flag. -/
def GLError.describe : GLError → String
  | .invalidEnum => "OpenGL ERROR:  GL_INVALID_ENUM"
  | .invalidValue => "OpenGL ERROR:  GL_INVALID_VALUE"
  | .invalidOperation => "OpenGL ERROR:  GL_INVALID_OPERATION"
  | .invalidFramebufferOperation => "OpenGL ERROR:  GL_INVALID_FRAMEBUFFER_OPERATION"
  | .outOfMemory => "OpenGL ERROR:  GL_OUT_OF_MEMORY"
  | .unknown => "OpenGL ERROR:  [unknown error code]"

/-- The function `CheckGLErrors` run on the pending error flags: it prints one
line per flag and returns `true` exactly when there was at least one. -/
def CheckGLErrors (pending : List GLError) : Bool × List String :=
  pending.foldl (fun r flag => (true, r.2 ++ [flag.describe])) (false, [])

/-- The data held by a `MyGeometry`: the vertex and colour arrays handed to
`glBufferData` and `elementCount`. The OpenGL object names are not modelled. -/
structure MyGeometry where
  vertices : List (ℚ × ℚ)
  colours : List (ℚ × ℚ × ℚ)
  elementCount : Nat

/-- The constructor `MyGeometry()`: nothing uploaded, `elementCount` 0. -/
def MyGeometry.empty : MyGeometry :=
  { vertices := [], colours := [], elementCount := 0 }

/-- The function `InitializeGeometry`: vertex `i` is
`((points[2i] + transform) / scale, (points[2i+1] + transform) / scale)`, colour `i`
is `(cols[3i], cols[3i+1], cols[3i+2])`, for `i < elemCount`; the result is
`!CheckGLErrors()`, with the lines that call printed. -/
def InitializeGeometry (points cols : Buffer ℚ) (elemCount : Nat)
    (scale transform : ℚ) (pending : List GLError) : MyGeometry × Bool × List String :=
  let vertices := (List.range elemCount).map
    (fun i => ((points (2 * i) + transform) / scale, (points (2 * i + 1) + transform) / scale))
  let colours := (List.range elemCount).map
    (fun i => (cols (3 * i), cols (3 * i + 1), cols (3 * i + 2)))
  let err := CheckGLErrors pending
  ({ vertices := vertices, colours := colours, elementCount := elemCount }, !err.1, err.2)

/-- The four buckets `geomPoints`, `geomLines`, `geomQuad`, `geomCubic`. -/
inductive Bucket where
  | points
  | lines
  | quad
  | cubic
  deriving DecidableEq, Repr

/-! ## Program state -/

/-- The global variables of the program that the key handler, the frame loop and
the renderer read or write, the value of `fps` local to `main`, and the text
sent to `cout`. The uniforms of the shader program (`text`, `awesome`, `scroll`,
`scrollFactor`, `bezierType`) live on the GPU and are not part of it. -/
structure State extends Counters where
  bezierType : Int
  printPoints : Bool
  printLinear : Bool
  printQuad : Bool
  printCubic : Bool
  scroll : Bool
  awesome : Bool
  text : Bool
  scrollFactor : ℚ
  scrollSpeed : ℚ
  scrollBound : ℚ
  fps : ℚ
  geomPoints : MyGeometry
  geomLines : MyGeometry
  geomQuad : MyGeometry
  geomCubic : MyGeometry
  windowShouldClose : Bool
  log : List String

/-- What one run of start-up or of the key handler takes from outside the program:
the outlines the extractor returns for a font file and a character, the OpenGL
error flags pending when `InitializeGeometry` checks them (by bucket), and the
indeterminate initial content of the local arrays. -/
structure Env where
  font : String → Char → MyGlyph ℚ
  glErrors : Bucket → List GLError
  verArrayLines : Buffer ℚ
  verArrayQuad : Buffer ℚ
  verArrayCub : Buffer ℚ
  verArrayPoints : Buffer ℚ
  cols : Buffer ℚ

/-- The global initialisers. -/
def State.globals : State :=
  { lineCount := 0, quadraticCount := 0, cubicCount := 0,
    bezierType := 0,
    printPoints := false, printLinear := false, printQuad := false, printCubic := false,
    scroll := false, awesome := false, text := false,
    scrollFactor := 0, scrollSpeed := 3, scrollBound := 0,
    fps := 0,
    geomPoints := MyGeometry.empty, geomLines := MyGeometry.empty,
    geomQuad := MyGeometry.empty, geomCubic := MyGeometry.empty,
    windowShouldClose := false,
    log := [] }

/-- The string `fox`. -/
def fox : String := "The Quick Brown Fox Jumps Over the Lazy Dog."

/-- The string `name`. -/
def name : String := "SUSANT"

/-- The string `intro` of `main`. -/
def intro : String := "Welcome to Susant\"s A3HALLOWEEN EDITION"

/-- The message printed when `InitializeGeometry` returns false. -/
def failMessage : String := "Program failed to intialize geometry!"

/-- The statement `if (!InitializeGeometry(..)) cout << ..`: the lines printed by
the call, then the failure message when it returned false. -/
def reportUpload (r : MyGeometry × Bool × List String) (log : List String) : List String :=
  if r.2.1 then log ++ r.2.2 else log ++ r.2.2 ++ [failMessage]

/-! ## Pieces shared by the glyph scenes -/

/-- The counting loop of a glyph scene:
`for each character: glyph = ExtractGlyph(c); glyphCount();`. -/
def countLoop (font : Char → MyGlyph ℚ) (str : List Char) (c : Counters) : Counters :=
  str.foldl (fun c ch => glyphCount (font ch) c) c

/-- The colour loop `for (i = 0; i < n; i++) cols[i] = 1.f;`. -/
def fillCols (n : Nat) (cols : Buffer ℚ) : Buffer ℚ :=
  (List.range n).foldl (fun cols i => store cols i 1) cols

/-- The local arrays of a glyph scene as declared, and the counters reset to 0:
`float verArrayLines[lineCount]; .. lineCount = 0; ..`. -/
def freshArrays (env : Env) : PackState ℚ :=
  { lineCount := 0, quadraticCount := 0, cubicCount := 0,
    verLines := env.verArrayLines, verQuad := env.verArrayQuad, verCub := env.verArrayCub }

/-- The declared lengths of `verArrayLines`, `verArrayQuad`, `verArrayCub` in a
glyph scene: the counters after the counting loop, which starts from the values
the counters hold when the command arrives. -/
def declaredLengths (font : Char → MyGlyph ℚ) (str : List Char) (s : State) : Counters :=
  countLoop font str s.toCounters

/-- The tail shared by the glyph scenes that show lines and quadratics: the colour
loop up to `quadraticCount * 3 / 2`, then the uploads of `geomLines` and
`geomQuad` with `lineCount / 2` and `quadraticCount / 2` vertices. -/
def uploadLinesQuad (env : Env) (scale transform : ℚ) (st : PackState ℚ) (s : State) : State :=
  let cols := fillCols (st.quadraticCount * 3 / 2) env.cols
  let rL := InitializeGeometry st.verLines cols (st.lineCount / 2) scale transform
    (env.glErrors Bucket.lines)
  let rQ := InitializeGeometry st.verQuad cols (st.quadraticCount / 2) scale transform
    (env.glErrors Bucket.quad)
  { s with
    toCounters := st.toCounters,
    geomLines := rL.1,
    geomQuad := rQ.1,
    log := reportUpload rQ (reportUpload rL s.log) }

/-- The tail of keys 4 and 8: as `uploadLinesQuad` (the colour loop again runs to
`quadraticCount * 3 / 2`), followed by the upload of `geomCubic` with
`cubicCount / 2` vertices. -/
def uploadLinesQuadCubic (env : Env) (scale transform : ℚ) (st : PackState ℚ) (s : State) :
    State :=
  let cols := fillCols (st.quadraticCount * 3 / 2) env.cols
  let rL := InitializeGeometry st.verLines cols (st.lineCount / 2) scale transform
    (env.glErrors Bucket.lines)
  let rQ := InitializeGeometry st.verQuad cols (st.quadraticCount / 2) scale transform
    (env.glErrors Bucket.quad)
  let rC := InitializeGeometry st.verCub cols (st.cubicCount / 2) scale transform
    (env.glErrors Bucket.cubic)
  { s with
    toCounters := st.toCounters,
    geomLines := rL.1,
    geomQuad := rQ.1,
    geomCubic := rC.1,
    log := reportUpload rC (reportUpload rQ (reportUpload rL s.log)) }

/-! ## Scenes 1 and 2: hand-written control points -/

/-- An array with an initialiser list: the listed values in order, the remaining
declared cells zero. -/
def ofList (l : List ℚ) : Buffer ℚ := fun i => l.getD i 0

/-- Four white vertices of a colour table (12 floats). -/
def whiteRow : List ℚ := [1, 1, 1, 1, 1, 1, 1, 1, 1, 1, 1, 1]

/-- Four green vertices of a colour table (12 floats). -/
def greenRow : List ℚ := [0, 1, 0, 0, 1, 0, 0, 1, 0, 0, 1, 0]

/-- The initialiser of `verArrayQuad` in key 1. -/
def verArrayQuad1 : List ℚ :=
  [1, 1, 2, -1, 0, -1, 0, 0,
   0, -1, -2, -1, -1, 1, 0, 0,
   -1, 1, 0, 1, 1, 1, 0, 0,
   6/5, 1/2, 5/2, 1, 13/10, -2/5, 0, 0]

/-- The initialiser of `colsQuad` in key 1 (144 of the 192 declared floats). -/
def colsQuad1 : List ℚ :=
  whiteRow ++ greenRow ++ whiteRow ++
  whiteRow ++ greenRow ++ whiteRow ++
  whiteRow ++ whiteRow ++ whiteRow ++
  whiteRow ++ greenRow ++ whiteRow

/-- The initialiser of `verArrayCubic` in key 2. -/
def verArrayCubic2 : List ℚ :=
  [1, 1, 4, 0, 6, 2, 9, 1,
   8, 2, 0, 8, 0, -2, 8, 4,
   8, 2, 15/2, 5/2, 15/2, 7/2, 8, 4,
   14/5, 7/2, 12/5, 19/5, 12/5, 16/5, 14/5, 7/2,
   3, 11/5, 7/2, 27/10, 7/2, 33/10, 3, 19/5,
   5, 3, 3, 2, 3, 3, 5, 2,
   5, 3, 53/10, 14/5, 53/10, 11/5, 5, 2]

/-- One group of four rows of `cols` in key 2. -/
def colsGroup2 : List ℚ := whiteRow ++ greenRow ++ greenRow ++ whiteRow

/-- The initialiser of `cols` in key 2 (all 336 declared floats). -/
def cols2 : List ℚ :=
  colsGroup2 ++ colsGroup2 ++ colsGroup2 ++ colsGroup2 ++ colsGroup2 ++ colsGroup2 ++ colsGroup2

/-- The eight stores of one iteration of a control-polygon loop: two source points
copied to `lines[j..j+3]`, then four zeros. -/
def storeLinePatch (src lines : Buffer ℚ) (i j : Nat) : Buffer ℚ :=
  let lines := store lines j (src i)
  let lines := store lines (j + 1) (src (i + 1))
  let lines := store lines (j + 2) (src (i + 2))
  let lines := store lines (j + 3) (src (i + 3))
  let lines := store lines (j + 4) 0
  let lines := store lines (j + 5) 0
  let lines := store lines (j + 6) 0
  let lines := store lines (j + 7) 0
  lines

/-- The eight stores of one iteration of a marker loop: a quad around
`(pointX, pointY)` reaching `up` above and `down` below it. -/
def storeMarker (points : Buffer ℚ) (j : Nat) (pointX pointY up down : ℚ) : Buffer ℚ :=
  let points := store points j (pointX - 1/10)
  let points := store points (j + 1) (pointY + up)
  let points := store points (j + 2) (pointX + 1/10)
  let points := store points (j + 3) (pointY - down)
  let points := store points (j + 4) (pointX - 1/10)
  let points := store points (j + 5) (pointY - down)
  let points := store points (j + 6) (pointX + 1/10)
  let points := store points (j + 7) (pointY + up)
  points

/-- The `while (i < elements * 2)` loop of key 1 that fills `verArrayLines`; the
first argument bounds the number of iterations. -/
def linesLoop1 (quad : Buffer ℚ) (elements : Nat) :
    Nat → Nat → Nat → Buffer ℚ → Buffer ℚ
  | 0, _, _, lines => lines
  | fuel + 1, i, j, lines =>
    if i < elements * 2 then
      let lines := storeLinePatch quad lines i j
      let j := j + 8
      let i := i + 2
      let i := if i % 4 = 0 then i + 4 else i
      linesLoop1 quad elements fuel i j lines
    else lines

/-- The `for (i = 0; i < elements * 2 - 1; i++)` loop of key 1 that fills
`verArrayPoints`; the first argument bounds the number of iterations. -/
def pointsLoop1 (quad : Buffer ℚ) (elements : Nat) :
    Nat → Nat → Nat → Nat → Buffer ℚ → Buffer ℚ
  | 0, _, _, _, points => points
  | fuel + 1, i, j, counter, points =>
    if i < elements * 2 - 1 then
      let pointX := quad i
      let i := i + 1
      let pointY := quad i
      let points := storeMarker points j pointX pointY (1/10) (1/20)
      let j := j + 8
      let counter := counter + 2
      if counter % 6 = 0 then
        pointsLoop1 quad elements fuel (i + 2 + 1) j 0 points
      else
        pointsLoop1 quad elements fuel (i + 1) j counter points
    else points

/-- The `while (i < elements * 2)` loop of key 2 that fills `verArrayLines`; the
first argument bounds the number of iterations. -/
def linesLoop2 (cubic : Buffer ℚ) (elements : Nat) :
    Nat → Nat → Nat → Nat → Buffer ℚ → Buffer ℚ
  | 0, _, _, _, lines => lines
  | fuel + 1, i, j, counter, lines =>
    if i < elements * 2 then
      let lines := storeLinePatch cubic lines i j
      let j := j + 8
      let counter := counter + 2
      let i := i + 2
      if counter % 6 = 0 then
        linesLoop2 cubic elements fuel (i + 2) j 0 lines
      else
        linesLoop2 cubic elements fuel i j counter lines
    else lines

/-- The `for (i = 0; i < elements * 2; i++)` loop of key 2 that fills
`verArrayPoints`; the first argument bounds the number of iterations. -/
def pointsLoop2 (cubic : Buffer ℚ) (elements : Nat) :
    Nat → Nat → Nat → Buffer ℚ → Buffer ℚ
  | 0, _, _, points => points
  | fuel + 1, i, j, points =>
    if i < elements * 2 then
      let pointX := cubic i
      let i := i + 1
      let pointY := cubic i
      let points := storeMarker points j pointX pointY (1/10) (1/10)
      pointsLoop2 cubic elements fuel (i + 1) (j + 8) points
    else points

/-! ## The key handler -/

/-- The branch `key == GLFW_KEY_1`. -/
def key1 (env : Env) (s : State) : State :=
  let s := { s with printPoints := true, printLinear := true, printQuad := true,
                    printCubic := false }
  let transform : ℚ := 0
  let scale : ℚ := 3
  let elements : Nat := 16
  let s := { s with scroll := false, awesome := false, text := false }
  let verArrayQuad := ofList verArrayQuad1
  let verArrayLines := linesLoop1 verArrayQuad elements (elements * 2) 0 0 env.verArrayLines
  let verArrayPoints :=
    pointsLoop1 verArrayQuad elements (elements * 2) 0 0 0 env.verArrayPoints
  let colsQuad := ofList colsQuad1
  let rQ := InitializeGeometry verArrayQuad colsQuad elements scale transform
    (env.glErrors Bucket.quad)
  let rP := InitializeGeometry verArrayPoints colsQuad (elements * 4) scale transform
    (env.glErrors Bucket.points)
  let rL := InitializeGeometry verArrayLines colsQuad (elements * 2) scale transform
    (env.glErrors Bucket.lines)
  { s with
    geomQuad := rQ.1,
    geomPoints := rP.1,
    geomLines := rL.1,
    log := reportUpload rL (reportUpload rP (reportUpload rQ s.log)) }

/-- The branch `key == GLFW_KEY_2`. -/
def key2 (env : Env) (s : State) : State :=
  let s := { s with printPoints := true, printLinear := true, printQuad := false,
                    printCubic := true }
  let transform : ℚ := -3
  let scale : ℚ := 7
  let elements : Nat := 28
  let s := { s with scroll := false, awesome := false, text := false }
  let verArrayCubic := ofList verArrayCubic2
  let verArrayLines :=
    linesLoop2 verArrayCubic elements (elements * 2) 0 0 0 env.verArrayLines
  let verArrayPoints := pointsLoop2 verArrayCubic elements (elements * 2) 0 0 env.verArrayPoints
  let cols := ofList cols2
  let rC := InitializeGeometry verArrayCubic cols elements scale transform
    (env.glErrors Bucket.cubic)
  let rP := InitializeGeometry verArrayPoints cols (elements * 4) scale transform
    (env.glErrors Bucket.points)
  let rL := InitializeGeometry verArrayLines cols (elements * 3) scale transform
    (env.glErrors Bucket.lines)
  { s with
    geomCubic := rC.1,
    geomPoints := rP.1,
    geomLines := rL.1,
    log := reportUpload rL (reportUpload rP (reportUpload rC s.log)) }

/-- The branch `key == GLFW_KEY_3`: font `Lora-Italic`, string `name`. -/
def key3 (env : Env) (s : State) : State :=
  let s := { s with printPoints := false, printLinear := true, printQuad := true,
                    printCubic := false }
  let transform : ℚ := 0
  let scale : ℚ := 1
  let s := { s with scroll := false, awesome := false, text := true }
  let font := env.font "Fonts/Lora-Italic.ttf"
  let s := { s with toCounters := countLoop font name.toList s.toCounters }
  let r := layoutKerned (55/100) (-18/10) (-39/100) (8/100) (name.toList.map font) 0
    (freshArrays env)
  uploadLinesQuad env scale transform r.2 s

/-- The branch `key == GLFW_KEY_5`: font `Comic_Sans`, string `name`. -/
def key5 (env : Env) (s : State) : State :=
  let s := { s with printPoints := false, printLinear := true, printQuad := true,
                    printCubic := false }
  let transform : ℚ := 0
  let scale : ℚ := 1
  let s := { s with scroll := false, awesome := false, text := true }
  let font := env.font "Fonts/Comic_Sans.ttf"
  let s := { s with toCounters := countLoop font name.toList s.toCounters }
  let r := layoutKerned (1/2) (-2) (-39/100) (8/100) (name.toList.map font) 0
    (freshArrays env)
  uploadLinesQuad env scale transform r.2 s

/-- The branch `key == GLFW_KEY_4`: font `SourceSansPro-ExtraLight`, string `name`,
with the cubic bucket. -/
def key4 (env : Env) (s : State) : State :=
  let s := { s with printPoints := false, printLinear := true, printQuad := true,
                    printCubic := true }
  let transform : ℚ := 0
  let scale : ℚ := 1
  let s := { s with scroll := false, awesome := false, text := true }
  let font := env.font "Fonts/SourceSansPro-ExtraLight.otf"
  let s := { s with toCounters := countLoop font name.toList s.toCounters }
  let r := layoutKerned (7/10) (-143/100) (-39/100) (10/100) (name.toList.map font) 0
    (freshArrays env)
  uploadLinesQuadCubic env scale transform r.2 s

/-- The branch `key == GLFW_KEY_6`: font `Comic_Sans`, string `fox`, scrolling with
bound -12. -/
def key6 (env : Env) (s : State) : State :=
  let s := { s with printPoints := false, printLinear := true, printQuad := true,
                    printCubic := false }
  let transform : ℚ := 0
  let scale : ℚ := 1
  let s := { s with scroll := true, awesome := false, text := true }
  let s := { s with scrollBound := -12 }
  let font := env.font "Fonts/Comic_Sans.ttf"
  let s := { s with toCounters := countLoop font fox.toList s.toCounters }
  let r := layoutKerned (1/2) 2 (-39/100) (8/100) (fox.toList.map font) 0
    (freshArrays env)
  uploadLinesQuad env scale transform r.2 s

/-- The branch `key == GLFW_KEY_7`: font `AlexBrush-Regular`, string `fox`,
scrolling with bound -11, no kerning correction. -/
def key7 (env : Env) (s : State) : State :=
  let s := { s with printPoints := false, printLinear := true, printQuad := true,
                    printCubic := false }
  let transform : ℚ := 0
  let scale : ℚ := 1
  let s := { s with scroll := true, awesome := false, text := true }
  let s := { s with scrollBound := -11 }
  let font := env.font "Fonts/AlexBrush-Regular.ttf"
  let s := { s with toCounters := countLoop font fox.toList s.toCounters }
  let r := layoutPlain (1/2) 2 (-39/100) (fox.toList.map font) 0 (freshArrays env)
  uploadLinesQuad env scale transform r.2 s

/-- The branch `key == GLFW_KEY_8`: font `Inconsolata`, string `fox`, scrolling
with bound -13, no kerning correction, with the cubic bucket. -/
def key8 (env : Env) (s : State) : State :=
  let s := { s with printPoints := false, printLinear := true, printQuad := true,
                    printCubic := true }
  let transform : ℚ := 0
  let scale : ℚ := 1
  let s := { s with scroll := true, awesome := false, text := true }
  let s := { s with scrollBound := -13 }
  let font := env.font "Fonts/Inconsolata.otf"
  let s := { s with toCounters := countLoop font fox.toList s.toCounters }
  let r := layoutPlain (1/2) 2 (-39/100) (fox.toList.map font) 0 (freshArrays env)
  uploadLinesQuadCubic env scale transform r.2 s

/-- The branch `key == GLFW_KEY_SPACE`. -/
def keySpace (s : State) : State :=
  if s.scroll then
    if s.awesome then { s with awesome := false } else { s with awesome := true }
  else if !s.text then
    if s.printPoints && s.printLinear then
      { s with printPoints := false, printLinear := false }
    else
      { s with printPoints := true, printLinear := true }
  else s

/-- The branch `key == GLFW_KEY_UP`. -/
def keyUp (s : State) : State := { s with scrollSpeed := s.scrollSpeed * (12/10) }

/-- The branch `key == GLFW_KEY_DOWN`. -/
def keyDown (s : State) : State := { s with scrollSpeed := s.scrollSpeed * (8/10) }

/-- The keys the handler distinguishes; `other` is any other key. Only presses
are modelled: the handler does nothing on release or repeat. -/
inductive Key where
  | escape
  | k1
  | k2
  | k3
  | k4
  | k5
  | k6
  | k7
  | k8
  | space
  | up
  | down
  | other
  deriving DecidableEq, Repr

/-- The function `KeyCallback` for a key press. -/
def KeyCallback (env : Env) (key : Key) (s : State) : State :=
  match key with
  | .escape => { s with windowShouldClose := true }
  | .k1 => key1 env s
  | .k2 => key2 env s
  | .k3 => key3 env s
  | .k5 => key5 env s
  | .k4 => key4 env s
  | .k6 => key6 env s
  | .k7 => key7 env s
  | .k8 => key8 env s
  | .space => keySpace s
  | .up => keyUp s
  | .down => keyDown s
  | .other => s

/-- Whether a key is one of the scene keys 1 to 8. -/
def Key.isScene : Key → Bool
  | .k1 | .k2 | .k3 | .k4 | .k5 | .k6 | .k7 | .k8 => true
  | _ => false

/-! ## Start-up and the frame loop -/

/-- The part of `main` between shader set-up and the frame loop: the start-up
scene. Two layout loops fill the same arrays, the first 22 characters of `intro`
at scale 0.1 and the rest at scale 0.17. The global `text` is not assigned. -/
def startUp (env : Env) : State :=
  let s := State.globals
  let s := { s with printPoints := false, printLinear := true, printQuad := true,
                    printCubic := false }
  let transform : ℚ := 0
  let scale : ℚ := 1
  let s := { s with scroll := false }
  let font := env.font "Fonts/Dreamscar.ttf"
  let s := { s with toCounters := countLoop font intro.toList s.toCounters }
  let r := layoutPlain (1/10) (-55/10) 1 ((intro.toList.take 22).map font) 0 (freshArrays env)
  let adv : ℚ := 0
  let r := layoutPlain (17/100) (-45/10) (-1) ((intro.toList.drop 22).map font) adv r.2
  uploadLinesQuad env scale transform r.2 s

/-- The scroll update at the top of each frame:
`scrollFactor -= scrollSpeed / float(fps); if (scrollFactor <= scrollBound) scrollFactor = 0.f;`
when `scroll` is set, `scrollFactor = 0.f` otherwise. Before the first frame-rate
measurement `fps` is 0; the rational quotient is then 0, where the float quotient
is infinite and the offset is reset. In the states the program reaches `fps = 0`
only occurs with `scrollFactor = 0` (`offset_zero_before_first_measurement`), and
there both readings store 0. -/
def scrollUpdate (s : State) : State :=
  if s.scroll then
    let s := { s with scrollFactor := s.scrollFactor - s.scrollSpeed / s.fps }
    if s.scrollFactor ≤ s.scrollBound then { s with scrollFactor := 0 } else s
  else { s with scrollFactor := 0 }

/-- The function `renderArray`: one draw of the bucket, with the current value of
the global `bezierType` sent to the shader. The draw is appended to the list of
draws issued so far. -/
def renderArray (b : Bucket) (r : State × List (Bucket × Int)) : State × List (Bucket × Int) :=
  (r.1, r.2 ++ [(b, r.1.bezierType)])

/-- The function `RenderScene`: the draws it issues, each with the bucket drawn and
the value of `bezierType` sent with it, and the state with `bezierType` as left
by the last draw and the lines of the closing `CheckGLErrors` printed. -/
def RenderScene (pending : List GLError) (s : State) : State × List (Bucket × Int) :=
  let r : State × List (Bucket × Int) := (s, [])
  let r := if r.1.printLinear then
    renderArray Bucket.lines ({ r.1 with bezierType := 1 }, r.2) else r
  let r := if r.1.printQuad then
    renderArray Bucket.quad ({ r.1 with bezierType := 2 }, r.2) else r
  let r := if r.1.printCubic then
    renderArray Bucket.cubic ({ r.1 with bezierType := 3 }, r.2) else r
  let r := if r.1.printPoints then
    renderArray Bucket.points ({ r.1 with bezierType := 0 }, r.2) else r
  ({ r.1 with log := r.1.log ++ (CheckGLErrors pending).2 }, r.2)

/-- The frame-rate measurement at the top of a frame: `fps` is assigned when a
second has passed (`measured` is the new value), else kept. -/
def measureFps (measured : Option ℚ) (s : State) : State :=
  match measured with
  | some f => { s with fps := f }
  | none => s

/-- One pass of the frame loop up to and including the draw: the frame-rate
measurement, the scroll update, `RenderScene`. Key presses are delivered after
it, by `glfwPollEvents`. -/
def frame (measured : Option ℚ) (pending : List GLError) (s : State) : State :=
  (RenderScene pending (scrollUpdate (measureFps measured s))).1

/-- The states the program can be in between two steps: after start-up, after a
key press, after a frame. A measured frame rate is positive (at least one frame
counted over at least one second). -/
inductive Reachable : State → Prop where
  | start (env : Env) : Reachable (startUp env)
  | key (env : Env) (k : Key) (s : State) : Reachable s → Reachable (KeyCallback env k s)
  | frame (measured : Option ℚ) (pending : List GLError) (s : State) :
      (∀ f, measured = some f → 0 < f) → Reachable s → Reachable (frame measured pending s)

/-! ## Scenario data and the layout rule -/

/-- The outline of the packing scenario: one contour holding the single degree-1
segment from (0,0) to (1,0). -/
def unitLineGlyph : MyGlyph ℚ :=
  { contours := [[{ degree := 1, x := ![0, 1, 0, 0], y := ![0, 0, 0, 0] }]], advance := 0 }

/-- Arrays and counters before a first call of `glyphToGeom`: the counters are 0,
the arrays hold whatever they held. -/
def packStart {F : Type} (verLines verQuad verCub : Buffer F) : PackState F :=
  { lineCount := 0, quadraticCount := 0, cubicCount := 0,
    verLines := verLines, verQuad := verQuad, verCub := verCub }

/-- The x-translation the layout rule gives shape `n`: the start offset plus, for
every earlier shape, its advance less the kerning correction. -/
def shapeTranslation (start kern : ℚ) (glyphs : List (MyGlyph ℚ)) (n : Nat) : ℚ :=
  start + ((glyphs.take n).map (fun g => g.advance - kern)).sum

/-- Layout by the rule: the shapes `rest`, which are the shapes of `all` from
position `n` on, are packed in order, shape `m` of `all` with x-translation
`shapeTranslation start kern all m` and y-translation `yTrans`. -/
def layoutByRule (scale start yTrans kern : ℚ) (all : List (MyGlyph ℚ)) :
    Nat → List (MyGlyph ℚ) → PackState ℚ → PackState ℚ
  | _, [], st => st
  | n, glyph :: rest, st =>
    layoutByRule scale start yTrans kern all (n + 1) rest
      (glyphToGeom glyph scale (shapeTranslation start kern all n) yTrans st)

/-! ## Views of the state and sample environments -/

/-- The scroll variables of a state: `scroll`, `scrollFactor`, `scrollSpeed`,
`scrollBound`, `fps`. -/
def scrollView (s : State) : Bool × ℚ × ℚ × ℚ × ℚ :=
  (s.scroll, s.scrollFactor, s.scrollSpeed, s.scrollBound, s.fps)

/-- The scene tuple of a state: `printPoints`, `printLinear`, `printQuad`,
`printCubic`, `scroll`, `scrollBound`, `text`, `awesome`. -/
def sceneTuple (s : State) : Bool × Bool × Bool × Bool × Bool × ℚ × Bool × Bool :=
  (s.printPoints, s.printLinear, s.printQuad, s.printCubic, s.scroll, s.scrollBound,
   s.text, s.awesome)

/-- The flags of a state without the scroll bound: `printPoints`, `printLinear`,
`printQuad`, `printCubic`, `scroll`, `text`, `awesome`. -/
def sceneFlags (s : State) : Bool × Bool × Bool × Bool × Bool × Bool × Bool :=
  (s.printPoints, s.printLinear, s.printQuad, s.printCubic, s.scroll, s.text, s.awesome)

/-- The buckets a key command passes to `InitializeGeometry`, in call order. -/
def uploads : Key → List Bucket
  | .k1 => [Bucket.quad, Bucket.points, Bucket.lines]
  | .k2 => [Bucket.cubic, Bucket.points, Bucket.lines]
  | .k3 => [Bucket.lines, Bucket.quad]
  | .k5 => [Bucket.lines, Bucket.quad]
  | .k4 => [Bucket.lines, Bucket.quad, Bucket.cubic]
  | .k6 => [Bucket.lines, Bucket.quad]
  | .k7 => [Bucket.lines, Bucket.quad]
  | .k8 => [Bucket.lines, Bucket.quad, Bucket.cubic]
  | _ => []

/-- An environment in which every font yields empty outlines with advance 0, no
OpenGL error is pending, and the local arrays start zeroed. -/
def quietEnv : Env :=
  { font := fun _ _ => { contours := [], advance := 0 },
    glErrors := fun _ => [],
    verArrayLines := fun _ => 0, verArrayQuad := fun _ => 0, verArrayCub := fun _ => 0,
    verArrayPoints := fun _ => 0, cols := fun _ => 0 }

/-- As `quietEnv`, but `GL_OUT_OF_MEMORY` is pending whenever `InitializeGeometry`
checks for errors. -/
def failingEnv : Env :=
  { quietEnv with glErrors := fun _ => [GLError.outOfMemory] }

/-- What the scroll variables satisfy in every reachable state: the speed is
positive, the measured frame rate is not negative, the offset is not positive, and
a state with scrolling on has a negative bound. -/
def ScrollInv (s : State) : Prop :=
  0 < s.scrollSpeed ∧ 0 ≤ s.fps ∧ s.scrollFactor ≤ 0 ∧ (s.scroll = true → s.scrollBound < 0)

/-- The run start-up, key 6, one frame on which the frame rate is measured as 60,
229 further frames, key 7. -/
def key7AfterScrolling : State :=
  KeyCallback quietEnv Key.k7
    ((frame none [])^[229]
      (frame (some 60) [] (KeyCallback quietEnv Key.k6 (startUp quietEnv))))

/-! ## Buckets as the renderer sees them, and the glyph scenes taken apart -/

/-- The visibility flag `RenderScene` tests before drawing a bucket. -/
def visible (s : State) : Bucket → Bool
  | .points => s.printPoints
  | .lines => s.printLinear
  | .quad => s.printQuad
  | .cubic => s.printCubic

/-- The `MyGeometry` global of a bucket. -/
def bucketOf (s : State) : Bucket → MyGeometry
  | .points => s.geomPoints
  | .lines => s.geomLines
  | .quad => s.geomQuad
  | .cubic => s.geomCubic

/-- The fixed priority of the draws, each bucket with its own degree tag: lines
(1), quadratics (2), cubics (3), point markers (0). -/
def drawOrder : List (Bucket × Int) :=
  [(Bucket.lines, 1), (Bucket.quad, 2), (Bucket.cubic, 3), (Bucket.points, 0)]

/-- The font file a glyph scene key loads. -/
def sceneFontFile : Key → String
  | .k3 => "Fonts/Lora-Italic.ttf"
  | .k4 => "Fonts/SourceSansPro-ExtraLight.otf"
  | .k5 => "Fonts/Comic_Sans.ttf"
  | .k6 => "Fonts/Comic_Sans.ttf"
  | .k7 => "Fonts/AlexBrush-Regular.ttf"
  | .k8 => "Fonts/Inconsolata.otf"
  | _ => ""

/-- The string a glyph scene key lays out: `name` for keys 3, 4, 5 and `fox` for
keys 6, 7, 8. -/
def sceneString : Key → List Char
  | .k3 | .k4 | .k5 => name.toList
  | .k6 | .k7 | .k8 => fox.toList
  | _ => []

/-- The arrays and counters of a glyph scene key after its fill loop, which starts
from the freshly declared arrays and counters 0. -/
def fillOf (env : Env) : Key → PackState ℚ
  | .k3 => (layoutKerned (55/100) (-18/10) (-39/100) (8/100)
      (name.toList.map (env.font "Fonts/Lora-Italic.ttf")) 0 (freshArrays env)).2
  | .k4 => (layoutKerned (7/10) (-143/100) (-39/100) (10/100)
      (name.toList.map (env.font "Fonts/SourceSansPro-ExtraLight.otf")) 0 (freshArrays env)).2
  | .k5 => (layoutKerned (1/2) (-2) (-39/100) (8/100)
      (name.toList.map (env.font "Fonts/Comic_Sans.ttf")) 0 (freshArrays env)).2
  | .k6 => (layoutKerned (1/2) 2 (-39/100) (8/100)
      (fox.toList.map (env.font "Fonts/Comic_Sans.ttf")) 0 (freshArrays env)).2
  | .k7 => (layoutPlain (1/2) 2 (-39/100)
      (fox.toList.map (env.font "Fonts/AlexBrush-Regular.ttf")) 0 (freshArrays env)).2
  | .k8 => (layoutPlain (1/2) 2 (-39/100)
      (fox.toList.map (env.font "Fonts/Inconsolata.otf")) 0 (freshArrays env)).2
  | _ => freshArrays env

/-- The arrays and counters of start-up after its two fill loops. -/
def startFill (env : Env) : PackState ℚ :=
  (layoutPlain (17/100) (-45/10) (-1)
    ((intro.toList.drop 22).map (env.font "Fonts/Dreamscar.ttf")) 0
    (layoutPlain (1/10) (-55/10) 1
      ((intro.toList.take 22).map (env.font "Fonts/Dreamscar.ttf")) 0 (freshArrays env)).2).2

/-- The declared length of the colour array of a glyph scene:
`cols[cubicCount * 3 / 2]` in key 4, `cols[quadraticCount * 3 / 2]` in the other
glyph scenes and at start-up. -/
def colsLength (k : Key) (st : PackState ℚ) : Nat :=
  match k with
  | .k4 => st.cubicCount * 3 / 2
  | _ => st.quadraticCount * 3 / 2

/-- The number of leading cells of the colour array that the colour loop of a
glyph scene sets to 1: `quadraticCount * 3 / 2` in every glyph scene. -/
def colsFilled (st : PackState ℚ) : Nat := st.quadraticCount * 3 / 2

/-- The indices of `cols` that `InitializeGeometry` reads for `elemCount`
vertices: `3i`, `3i + 1`, `3i + 2` for `i < elemCount`. -/
def colourReads (elemCount : Nat) : List Nat :=
  (List.range elemCount).flatMap (fun i => [3 * i, 3 * i + 1, 3 * i + 2])

/-- The number of segments of degree `d` in a sequence of glyphs. -/
def segmentTotal (glyphs : List (MyGlyph ℚ)) (d : Nat) : Nat :=
  (glyphs.map (fun g => (segmentsOfDegree g d).length)).sum

/-- The fill pass stays inside the arrays the counting pass sized. `cap` holds the
declared lengths, `prior` the counters the command found, `fill` the arrays and
counters after the fill pass: each declared length is the prior counter plus the
number of floats written, so it is at least that number, and no cell at or beyond
the number of floats written differs from the initial content of its array. -/
def FillWithin (cap prior : Counters) (fill : PackState ℚ) (env : Env) : Prop :=
  (cap.lineCount = prior.lineCount + fill.lineCount
    ∧ cap.quadraticCount = prior.quadraticCount + fill.quadraticCount
    ∧ cap.cubicCount = prior.cubicCount + fill.cubicCount)
  ∧ (fill.lineCount ≤ cap.lineCount
    ∧ fill.quadraticCount ≤ cap.quadraticCount
    ∧ fill.cubicCount ≤ cap.cubicCount)
  ∧ (∀ i, fill.lineCount ≤ i → fill.verLines i = env.verArrayLines i)
  ∧ (∀ i, fill.quadraticCount ≤ i → fill.verQuad i = env.verArrayQuad i)
  ∧ (∀ i, fill.cubicCount ≤ i → fill.verCub i = env.verArrayCub i)

/-- A bucket holds whole patches only: `elementCount` is a multiple of 4, so the
patch count `elementCount / 4` loses nothing, and the uploaded vertex and colour
arrays have `elementCount` entries each. -/
def WholePatches (g : MyGeometry) : Prop :=
  g.elementCount % 4 = 0
  ∧ 4 * (g.elementCount / 4) = g.elementCount
  ∧ g.vertices.length = g.elementCount
  ∧ g.colours.length = g.elementCount

/-- Markers written one after the other: marker number `k`, `k + 1`, .. for the
control points stored at the listed positions of `src`, marker `m` occupying the
cells `8 * m` to `8 * m + 7`. -/
def markersFrom (src : Buffer ℚ) (up down : ℚ) :
    Nat → List Nat → Buffer ℚ → Buffer ℚ
  | _, [], points => points
  | k, i :: rest, points =>
    markersFrom src up down (k + 1) rest
      (storeMarker points (8 * k) (src i) (src (i + 1)) up down)

/-- The positions in `verArrayQuad` of the control points the marker loop of key 1
visits: three points of each row of four, the fourth (the pad point) skipped. -/
def markerSources1 : List Nat := [0, 2, 4, 8, 10, 12, 16, 18, 20, 24, 26, 28]

/-- The positions in `verArrayCubic` of the control points the marker loop of key 2
visits: all 28 points. -/
def markerSources2 : List Nat :=
  [0, 2, 4, 6, 8, 10, 12, 14, 16, 18, 20, 22, 24, 26, 28, 30, 32, 34, 36, 38, 40, 42, 44, 46,
   48, 50, 52, 54]

/-- As `quietEnv`, but the local arrays start filled with the value `g`. -/
def staleEnv (g : ℚ) : Env :=
  { quietEnv with
    verArrayLines := fun _ => g, verArrayQuad := fun _ => g, verArrayCub := fun _ => g,
    verArrayPoints := fun _ => g, cols := fun _ => g }

/-! ## Runs with a record of which scene filled each bucket -/

/-- What happens to the program after start-up: a key press, with what the handler
takes from outside, or a frame. -/
inductive Event where
  | key (env : Env) (k : Key)
  | frame (measured : Option ℚ) (pending : List GLError)

/-- A program state together with a record kept beside it: the number of the scene
entered last (start-up is scene 0, every scene key enters the next one) and, for
each bucket, the number of the scene during which `InitializeGeometry` last
replaced its content, if any did. -/
structure Traced where
  state : State
  scene : Nat
  filledIn : Bucket → Option Nat

/-- Start-up: scene 0, which uploads the line and the quadratic bucket. -/
def Traced.start (env : Env) : Traced :=
  { state := startUp env,
    scene := 0,
    filledIn := fun b => if b ∈ [Bucket.lines, Bucket.quad] then some 0 else none }

/-- One event. A scene key enters the next scene and fills the buckets it uploads;
other keys and frames fill nothing. -/
def Traced.step (t : Traced) : Event → Traced
  | .key env k =>
    { state := KeyCallback env k t.state,
      scene := if k.isScene then t.scene + 1 else t.scene,
      filledIn := fun b => if b ∈ uploads k then some (t.scene + 1) else t.filledIn b }
  | .frame measured pending => { t with state := frame measured pending t.state }

/-- The run of a list of events from start-up. -/
def Traced.run (env : Env) (events : List Event) : Traced :=
  events.foldl Traced.step (Traced.start env)

/-- Every visible bucket was filled during the scene entered last. -/
def Fresh (t : Traced) : Prop :=
  ∀ b : Bucket, visible t.state b = true → t.filledIn b = some t.scene

/-- Freshness that Space cannot break: every visible bucket was filled during the
scene entered last, and when Space would switch the point and line buckets on
(scroll and `text` both unset) those two were filled during that scene. -/
def SpaceProof (t : Traced) : Prop :=
  Fresh t
  ∧ (t.state.scroll = false → t.state.text = false →
      t.filledIn Bucket.points = some t.scene ∧ t.filledIn Bucket.lines = some t.scene)

/-! ## The uploads of a glyph scene, and runs that differ in indeterminate memory -/

/-- The upload of the line bucket in a glyph scene key: `verArrayLines` after the
fill pass, the colour array after the colour loop, `lineCount / 2` vertices. -/
def linesUpload (env : Env) (k : Key) : MyGeometry :=
  (InitializeGeometry (fillOf env k).verLines
    (fillCols (colsFilled (fillOf env k)) env.cols) ((fillOf env k).lineCount / 2) 1 0
    (env.glErrors Bucket.lines)).1

/-- The upload of the quadratic bucket in a glyph scene key. -/
def quadUpload (env : Env) (k : Key) : MyGeometry :=
  (InitializeGeometry (fillOf env k).verQuad
    (fillCols (colsFilled (fillOf env k)) env.cols) ((fillOf env k).quadraticCount / 2) 1 0
    (env.glErrors Bucket.quad)).1

/-- The upload of the cubic bucket in the glyph scene keys 4 and 8. -/
def cubicUpload (env : Env) (k : Key) : MyGeometry :=
  (InitializeGeometry (fillOf env k).verCub
    (fillCols (colsFilled (fillOf env k)) env.cols) ((fillOf env k).cubicCount / 2) 1 0
    (env.glErrors Bucket.cubic)).1

/-- Two packing states agree where they have been written: each degree has the
same counter in both and the same content below it. -/
def AgreeBelow (a b : PackState ℚ) : Prop :=
  ∀ d : Nat, d = 1 ∨ d = 2 ∨ d = 3 →
    a.cntOf d = b.cntOf d ∧ ∀ i, i < a.cntOf d → a.bufOf d i = b.bufOf d i

/-- A font all of whose glyphs are the single line segment from (0,0) to (1,0),
with the local arrays starting filled with the value `g`. -/
def lineFontEnv (g : ℚ) : Env :=
  { staleEnv g with font := fun _ _ => unitLineGlyph }

/-- A font all of whose glyphs are one cubic segment, with the local arrays
starting filled with the value `g`. -/
def cubicFontEnv (g : ℚ) : Env :=
  { staleEnv g with
    font := fun _ _ =>
      { contours := [[{ degree := 3, x := ![0, 1, 2, 3], y := ![0, 1, 1, 0] }]], advance := 0 } }

/-! # Theorems -/

section BufferLemmas

variable {F : Type}

theorem slots_append (buf : Buffer F) (lo m n : Nat) :
    slots buf lo (m + n) = slots buf lo m ++ slots buf (lo + 2 * m) n := by
  unfold slots
  rw [List.range_add, List.map_append, List.map_map]
  congr 1
  apply List.map_congr_left
  intro k _
  simp only [Function.comp]
  rw [show lo + 2 * (m + k) = lo + 2 * m + 2 * k by ring]

theorem slots_congr (b1 b2 : Buffer F) (lo n : Nat)
    (h : ∀ i, lo ≤ i → i < lo + 2 * n → b1 i = b2 i) :
    slots b1 lo n = slots b2 lo n := by
  unfold slots
  apply List.map_congr_left
  intro k hk
  have hk2 : k < n := List.mem_range.mp hk
  rw [h (lo + 2 * k) (by omega) (by omega), h (lo + 2 * k + 1) (by omega) (by omega)]

theorem slots_length (buf : Buffer F) (lo n : Nat) : (slots buf lo n).length = n := by
  simp [slots]

end BufferLemmas

section PackerLemmas

variable {F : Type} [Add F] [Mul F] [Zero F]

/-- A segment of degree `d` advances the counter of `d` by 8, stores the record of
the data model at the old counter, and touches no other cell of that buffer. -/
theorem packSegment_same (scale xTrans yTrans : F) (st : PackState F)
    (seg : MySegment F) (d : Nat) (hd : d = 1 ∨ d = 2 ∨ d = 3)
    (hs : seg.degree = (d : Int)) :
    (packSegment scale xTrans yTrans st seg).cntOf d = st.cntOf d + 8
    ∧ slots ((packSegment scale xTrans yTrans st seg).bufOf d) (st.cntOf d) 4
        = patchRecord scale xTrans yTrans d seg
    ∧ ∀ i, (i < st.cntOf d ∨ st.cntOf d + 8 ≤ i) →
        (packSegment scale xTrans yTrans st seg).bufOf d i = st.bufOf d i := by
  rcases hd with rfl | rfl | rfl
  · refine ⟨?_, ?_, ?_⟩
    · simp [packSegment, hs, PackState.cntOf]
    · simp [packSegment, hs, PackState.cntOf, PackState.bufOf, slots, patchRecord,
        List.range_succ, store, mapPoint, padPoint, List.finRange, List.replicate]
    · intro i hi
      simp only [packSegment, hs, PackState.cntOf, PackState.bufOf] at hi ⊢
      simp only [Nat.cast_one, if_true, store]
      have : i ≠ st.lineCount ∧ i ≠ st.lineCount + 1 ∧ i ≠ st.lineCount + 2
          ∧ i ≠ st.lineCount + 3 ∧ i ≠ st.lineCount + 4 ∧ i ≠ st.lineCount + 5
          ∧ i ≠ st.lineCount + 6 ∧ i ≠ st.lineCount + 7 := by
        simp only [if_true] at hi
        omega
      simp [this]
  · refine ⟨?_, ?_, ?_⟩
    · simp [packSegment, hs, PackState.cntOf]
    · simp [packSegment, hs, PackState.cntOf, PackState.bufOf, slots, patchRecord,
        List.range_succ, store, mapPoint, padPoint, List.finRange, List.replicate]
    · intro i hi
      simp only [packSegment, hs, PackState.cntOf, PackState.bufOf] at hi ⊢
      have : i ≠ st.quadraticCount ∧ i ≠ st.quadraticCount + 1 ∧ i ≠ st.quadraticCount + 2
          ∧ i ≠ st.quadraticCount + 3 ∧ i ≠ st.quadraticCount + 4
          ∧ i ≠ st.quadraticCount + 5 ∧ i ≠ st.quadraticCount + 6
          ∧ i ≠ st.quadraticCount + 7 := by
        simp at hi
        omega
      simp [store, this]
  · refine ⟨?_, ?_, ?_⟩
    · simp [packSegment, hs, PackState.cntOf]
    · simp [packSegment, hs, PackState.cntOf, PackState.bufOf, slots, patchRecord,
        List.range_succ, store, mapPoint, padPoint, List.finRange, List.replicate]
      exact ⟨rfl, rfl⟩
    · intro i hi
      simp only [packSegment, hs, PackState.cntOf, PackState.bufOf] at hi ⊢
      have : i ≠ st.cubicCount ∧ i ≠ st.cubicCount + 1 ∧ i ≠ st.cubicCount + 2
          ∧ i ≠ st.cubicCount + 3 ∧ i ≠ st.cubicCount + 4
          ∧ i ≠ st.cubicCount + 5 ∧ i ≠ st.cubicCount + 6
          ∧ i ≠ st.cubicCount + 7 := by
        simp at hi
        omega
      simp [store, this]

/-- A segment whose degree is not `d` leaves the counter and the buffer of `d` as
they were. -/
theorem packSegment_other (scale xTrans yTrans : F) (st : PackState F)
    (seg : MySegment F) (d : Nat) (hd : d = 1 ∨ d = 2 ∨ d = 3)
    (hs : seg.degree ≠ (d : Int)) :
    (packSegment scale xTrans yTrans st seg).cntOf d = st.cntOf d
    ∧ (packSegment scale xTrans yTrans st seg).bufOf d = st.bufOf d := by
  rcases hd with rfl | rfl | rfl <;>
  · simp only [Nat.cast_one, Nat.cast_ofNat] at hs
    unfold packSegment
    split_ifs <;> simp_all [PackState.cntOf, PackState.bufOf]

end PackerLemmas

section PackerFold

variable {F : Type} [Add F] [Mul F] [Zero F]

/-- Packing a run of segments: the counter of `d` grows by 8 per segment of degree
`d`, the cells from the old counter on hold the records of those segments in
order, and every cell below the old or from the new counter on is untouched. -/
theorem packFold (scale xTrans yTrans : F) (d : Nat) (hd : d = 1 ∨ d = 2 ∨ d = 3)
    (segs : List (MySegment F)) :
    ∀ st : PackState F,
      (segs.foldl (packSegment scale xTrans yTrans) st).cntOf d
          = st.cntOf d + 8 * (segs.filter (fun s => decide (s.degree = (d : Int)))).length
      ∧ slots ((segs.foldl (packSegment scale xTrans yTrans) st).bufOf d) (st.cntOf d)
            (4 * (segs.filter (fun s => decide (s.degree = (d : Int)))).length)
          = (segs.filter (fun s => decide (s.degree = (d : Int)))).flatMap
              (patchRecord scale xTrans yTrans d)
      ∧ ∀ i, (i < st.cntOf d
              ∨ (segs.foldl (packSegment scale xTrans yTrans) st).cntOf d ≤ i) →
          (segs.foldl (packSegment scale xTrans yTrans) st).bufOf d i = st.bufOf d i := by
  induction segs with
  | nil =>
    intro st
    simp [slots]
  | cons seg rest ih =>
    intro st
    obtain ⟨ihc, ihs, ihu⟩ := ih (packSegment scale xTrans yTrans st seg)
    by_cases hs : seg.degree = (d : Int)
    · obtain ⟨hc, hr, hu⟩ := packSegment_same scale xTrans yTrans st seg d hd hs
      have hfil : (seg :: rest).filter (fun s => decide (s.degree = (d : Int)))
          = seg :: rest.filter (fun s => decide (s.degree = (d : Int))) := by
        simp [List.filter_cons, hs]
      rw [hfil]
      simp only [List.foldl_cons, List.length_cons, List.flatMap_cons]
      refine ⟨by rw [ihc, hc]; ring, ?_, ?_⟩
      · rw [show 4 * ((rest.filter (fun s => decide (s.degree = (d : Int)))).length + 1)
            = 4 + 4 * (rest.filter (fun s => decide (s.degree = (d : Int)))).length by ring,
          slots_append]
        congr 1
        · rw [← hr]
          apply slots_congr
          intro i _ hi2
          exact ihu i (Or.inl (by rw [hc]; omega))
        · rw [← ihs, hc]
      · intro i hi
        rcases hi with hi | hi
        · rw [ihu i (Or.inl (by rw [hc]; omega))]
          exact hu i (Or.inl hi)
        · rw [ihu i (Or.inr hi)]
          rw [ihc, hc] at hi
          exact hu i (Or.inr (by omega))
    · obtain ⟨hc, hb⟩ := packSegment_other scale xTrans yTrans st seg d hd hs
      have hfil : (seg :: rest).filter (fun s => decide (s.degree = (d : Int)))
          = rest.filter (fun s => decide (s.degree = (d : Int))) := by
        simp [List.filter_cons, hs]
      rw [hfil]
      simp only [List.foldl_cons]
      rw [hc] at ihc ihs ihu
      rw [hb] at ihu
      exact ⟨ihc, ihs, ihu⟩

/-- The two nested loops of `glyphToGeom` visit the segments of all contours in
one flat sequence. -/
theorem glyphToGeom_flatten (glyph : MyGlyph F) (scale xTrans yTrans : F)
    (st : PackState F) :
    glyphToGeom glyph scale xTrans yTrans st
      = glyph.contours.flatten.foldl (packSegment scale xTrans yTrans) st := by
  unfold glyphToGeom
  generalize glyph.contours = cs
  induction cs generalizing st with
  | nil => rfl
  | cons c cs ih => simp [List.foldl_append, ih]

/-- The effect of `glyphToGeom` on the buffer and counter of one degree, from any
starting counters. -/
theorem glyphToGeom_degree (glyph : MyGlyph F) (scale xTrans yTrans : F)
    (d : Nat) (hd : d = 1 ∨ d = 2 ∨ d = 3) (st : PackState F) :
    (glyphToGeom glyph scale xTrans yTrans st).cntOf d
        = st.cntOf d + 8 * (segmentsOfDegree glyph d).length
    ∧ slots ((glyphToGeom glyph scale xTrans yTrans st).bufOf d) (st.cntOf d)
          (4 * (segmentsOfDegree glyph d).length)
        = (segmentsOfDegree glyph d).flatMap (patchRecord scale xTrans yTrans d)
    ∧ ∀ i, (i < st.cntOf d ∨ (glyphToGeom glyph scale xTrans yTrans st).cntOf d ≤ i) →
        (glyphToGeom glyph scale xTrans yTrans st).bufOf d i = st.bufOf d i := by
  rw [glyphToGeom_flatten]
  exact packFold scale xTrans yTrans d hd glyph.contours.flatten st

end PackerFold

/-! ## C1, C2: what `glyphToGeom` writes -/

/-- C1. With the three counters at 0, `glyphToGeom` leaves in the buffer of each
degree 1, 2, 3 exactly the records of the segments of that degree, in contour-then-
segment order, each record being the mapped control points followed by pad points
up to 4 slots; the counter ends at 8 times the number of those segments, cells from
the counter on are untouched (so segments of any other degree write nothing). The
single segment (0,0)-(1,0) at scale 1 and translation (0,0) packs to
(0,0),(1,0),(0,0),(0,0). -/
theorem glyphToGeom_writes_records :
    (∀ (F : Type) [Add F] [Mul F] [Zero F] (glyph : MyGlyph F) (scale xTrans yTrans : F)
        (verLines verQuad verCub : Buffer F),
      ((glyphToGeom glyph scale xTrans yTrans (packStart verLines verQuad verCub)).lineCount
            = 8 * (segmentsOfDegree glyph 1).length
        ∧ slots (glyphToGeom glyph scale xTrans yTrans
              (packStart verLines verQuad verCub)).verLines 0
            (4 * (segmentsOfDegree glyph 1).length)
            = (segmentsOfDegree glyph 1).flatMap (patchRecord scale xTrans yTrans 1)
        ∧ ∀ i, 8 * (segmentsOfDegree glyph 1).length ≤ i →
            (glyphToGeom glyph scale xTrans yTrans
              (packStart verLines verQuad verCub)).verLines i = verLines i)
      ∧ ((glyphToGeom glyph scale xTrans yTrans
              (packStart verLines verQuad verCub)).quadraticCount
            = 8 * (segmentsOfDegree glyph 2).length
        ∧ slots (glyphToGeom glyph scale xTrans yTrans
              (packStart verLines verQuad verCub)).verQuad 0
            (4 * (segmentsOfDegree glyph 2).length)
            = (segmentsOfDegree glyph 2).flatMap (patchRecord scale xTrans yTrans 2)
        ∧ ∀ i, 8 * (segmentsOfDegree glyph 2).length ≤ i →
            (glyphToGeom glyph scale xTrans yTrans
              (packStart verLines verQuad verCub)).verQuad i = verQuad i)
      ∧ ((glyphToGeom glyph scale xTrans yTrans
              (packStart verLines verQuad verCub)).cubicCount
            = 8 * (segmentsOfDegree glyph 3).length
        ∧ slots (glyphToGeom glyph scale xTrans yTrans
              (packStart verLines verQuad verCub)).verCub 0
            (4 * (segmentsOfDegree glyph 3).length)
            = (segmentsOfDegree glyph 3).flatMap (patchRecord scale xTrans yTrans 3)
        ∧ ∀ i, 8 * (segmentsOfDegree glyph 3).length ≤ i →
            (glyphToGeom glyph scale xTrans yTrans
              (packStart verLines verQuad verCub)).verCub i = verCub i))
    ∧ (∀ verLines verQuad verCub : Buffer ℚ,
        slots (glyphToGeom unitLineGlyph 1 0 0 (packStart verLines verQuad verCub)).verLines 0 4
          = [(0, 0), (1, 0), (0, 0), (0, 0)]) := by
  refine ⟨?_, ?_⟩
  · intro F _ _ _ glyph scale xTrans yTrans verLines verQuad verCub
    obtain ⟨h1c, h1s, h1u⟩ := glyphToGeom_degree glyph scale xTrans yTrans 1 (Or.inl rfl)
      (packStart verLines verQuad verCub)
    obtain ⟨h2c, h2s, h2u⟩ := glyphToGeom_degree glyph scale xTrans yTrans 2
      (Or.inr (Or.inl rfl)) (packStart verLines verQuad verCub)
    obtain ⟨h3c, h3s, h3u⟩ := glyphToGeom_degree glyph scale xTrans yTrans 3
      (Or.inr (Or.inr rfl)) (packStart verLines verQuad verCub)
    simp [PackState.cntOf, PackState.bufOf, packStart] at h1c h1s h1u
    simp [PackState.cntOf, PackState.bufOf, packStart] at h2c h2s h2u
    simp [PackState.cntOf, PackState.bufOf, packStart] at h3c h3s h3u
    simp only [packStart]
    refine ⟨⟨h1c, h1s, ?_⟩, ⟨h2c, h2s, ?_⟩, ⟨h3c, h3s, ?_⟩⟩
    · intro i hi
      exact h1u i (by rw [h1c]; exact hi)
    · intro i hi
      exact h2u i (by rw [h2c]; exact hi)
    · intro i hi
      exact h3u i (by rw [h3c]; exact hi)
  · intro verLines verQuad verCub
    simp [glyphToGeom, unitLineGlyph, packSegment, packStart, slots, store, List.range_succ]

/-- C2 as stated fails: for the degree-1 segment (0,0)-(1,0) packed at scale 1
with translation (0,0), slot 2 = slot `d + 1` holds the end point (1,0), not the
pad point (0,0). -/
theorem packSegment_slot_after_degree_not_pad :
    ¬ (∀ j, 1 + 1 ≤ j → j ≤ 4 →
        ((packSegment (1 : Int) 0 0 (packStart (fun _ => 0) (fun _ => 0) (fun _ => 0))
            { degree := 1, x := ![0, 1, 0, 0], y := ![0, 0, 0, 0] }).bufOf 1 (0 + 2 * (j - 1)),
         (packSegment (1 : Int) 0 0 (packStart (fun _ => 0) (fun _ => 0) (fun _ => 0))
            { degree := 1, x := ![0, 1, 0, 0], y := ![0, 0, 0, 0] }).bufOf 1
              (0 + 2 * (j - 1) + 1))
          = padPoint (1 : Int) 0 0) := by
  intro h
  have h2 := h 2 (by decide) (by decide)
  simp [packSegment, PackState.bufOf, packStart, store, padPoint] at h2

/-- C2, amended. For a segment of degree `d` in 1, 2, 3 the record `glyphToGeom`
packs is the 4 slots (8 floats) starting at the old counter of `d`: the counter
advances by 8, no cell outside those 8 is written, the 4 slots are the record of
the data model (control points 1 to `d + 1`, then pad points), and each of the
slots `d + 2` to 4 (numbered from 1) holds the pad point
`((0 + xTrans) * scale, (0 + yTrans) * scale)`. -/
theorem packSegment_pads {F : Type} [Add F] [Mul F] [Zero F]
    (scale xTrans yTrans : F) (st : PackState F) (seg : MySegment F) (d : Nat)
    (hd : d = 1 ∨ d = 2 ∨ d = 3) (hs : seg.degree = (d : Int)) :
    (packSegment scale xTrans yTrans st seg).cntOf d = st.cntOf d + 8
    ∧ (slots ((packSegment scale xTrans yTrans st seg).bufOf d) (st.cntOf d) 4).length = 4
    ∧ slots ((packSegment scale xTrans yTrans st seg).bufOf d) (st.cntOf d) 4
        = patchRecord scale xTrans yTrans d seg
    ∧ (∀ i, (i < st.cntOf d ∨ st.cntOf d + 8 ≤ i) →
        (packSegment scale xTrans yTrans st seg).bufOf d i = st.bufOf d i)
    ∧ ∀ j, d + 2 ≤ j → j ≤ 4 →
        ((packSegment scale xTrans yTrans st seg).bufOf d (st.cntOf d + 2 * (j - 1)),
         (packSegment scale xTrans yTrans st seg).bufOf d (st.cntOf d + 2 * (j - 1) + 1))
          = padPoint scale xTrans yTrans := by
  obtain ⟨hc, hr, hu⟩ := packSegment_same scale xTrans yTrans st seg d hd hs
  refine ⟨hc, slots_length _ _ _, hr, hu, ?_⟩
  intro j hj1 hj2
  rcases hd with rfl | rfl | rfl
  · have hj : j = 3 ∨ j = 4 := by omega
    rcases hj with rfl | rfl <;>
      simp [packSegment, hs, PackState.cntOf, PackState.bufOf, store, padPoint]
  · have hj : j = 4 := by omega
    subst hj
    simp [packSegment, hs, PackState.cntOf, PackState.bufOf, store, padPoint]
  · omega

/-- Witness for the amended C2: a quadratic segment packed at scale 2 with
translation (3, 5); slot 4 holds the pad point (6, 10). -/
theorem packSegment_pads_witness :
    ((2 : Nat) = 1 ∨ (2 : Nat) = 2 ∨ (2 : Nat) = 3)
    ∧ ((packSegment (2 : Int) 3 5 (packStart (fun _ => 7) (fun _ => 7) (fun _ => 7))
          { degree := 2, x := ![1, 2, 3, 9], y := ![4, 5, 6, 9] }).bufOf 2 6,
       (packSegment (2 : Int) 3 5 (packStart (fun _ => 7) (fun _ => 7) (fun _ => 7))
          { degree := 2, x := ![1, 2, 3, 9], y := ![4, 5, 6, 9] }).bufOf 2 7)
        = ((6 : Int), (10 : Int)) := by
  refine ⟨Or.inr (Or.inl rfl), ?_⟩
  have h := (packSegment_pads (2 : Int) 3 5
    (packStart (fun _ => 7) (fun _ => 7) (fun _ => 7))
    { degree := 2, x := ![1, 2, 3, 9], y := ![4, 5, 6, 9] } 2 (Or.inr (Or.inl rfl)) rfl).2.2.2.2
    4 (by decide) (by decide)
  simpa [PackState.cntOf, packStart, padPoint] using h

/-! ## C3: the layout loops -/

theorem layoutKerned_cons (scale start yTrans kern : ℚ) (g : MyGlyph ℚ)
    (gs : List (MyGlyph ℚ)) (adv : ℚ) (st : PackState ℚ) :
    layoutKerned scale start yTrans kern (g :: gs) adv st
      = layoutKerned scale start yTrans kern gs (adv + (g.advance - kern))
          (glyphToGeom g scale (start + adv) yTrans st) := by
  simp [layoutKerned]

theorem layoutPlain_cons (scale start yTrans : ℚ) (g : MyGlyph ℚ)
    (gs : List (MyGlyph ℚ)) (adv : ℚ) (st : PackState ℚ) :
    layoutPlain scale start yTrans (g :: gs) adv st
      = layoutPlain scale start yTrans gs (adv + g.advance)
          (glyphToGeom g scale (start + adv) yTrans st) := by
  simp [layoutPlain]

/-- The loop without a kerning correction is the loop with correction 0. -/
theorem layoutPlain_eq_kerned (scale start yTrans : ℚ) (gs : List (MyGlyph ℚ)) :
    ∀ (adv : ℚ) (st : PackState ℚ),
      layoutPlain scale start yTrans gs adv st = layoutKerned scale start yTrans 0 gs adv st := by
  induction gs with
  | nil => intro adv st; rfl
  | cons g gs ih =>
    intro adv st
    rw [layoutPlain_cons, layoutKerned_cons, ih, sub_zero]

/-- The kerned loop, entered with `adv` equal to the sum over the shapes already
laid out, follows the layout rule for the remaining shapes. -/
theorem layoutKerned_rule (scale start yTrans kern : ℚ) (gs : List (MyGlyph ℚ)) :
    ∀ (pre : List (MyGlyph ℚ)) (st : PackState ℚ),
      (layoutKerned scale start yTrans kern gs
          ((pre.map (fun g => g.advance - kern)).sum) st).2
        = layoutByRule scale start yTrans kern (pre ++ gs) pre.length gs st := by
  induction gs with
  | nil => intro pre st; rfl
  | cons g gs ih =>
    intro pre st
    rw [layoutKerned_cons]
    have h := ih (pre ++ [g]) (glyphToGeom g scale
      (start + (pre.map (fun g => g.advance - kern)).sum) yTrans st)
    simp only [List.map_append, List.sum_append, List.map_cons, List.map_nil, List.sum_cons,
      List.sum_nil, add_zero, List.append_assoc, List.singleton_append, List.length_append,
      List.length_singleton] at h
    rw [h]
    simp [layoutByRule, shapeTranslation, List.take_left]

/-! ## The scroll update: C5, C6 and the lemmas behind C4 -/

theorem scrollUpdate_on (s : State) (h : s.scroll = true) :
    scrollView (scrollUpdate s)
      = (true,
         if s.scrollFactor - s.scrollSpeed / s.fps ≤ s.scrollBound then 0
         else s.scrollFactor - s.scrollSpeed / s.fps,
         s.scrollSpeed, s.scrollBound, s.fps) := by
  simp only [scrollUpdate, h, if_true, scrollView]
  split_ifs <;> simp [h]

theorem scrollUpdate_off (s : State) (h : s.scroll = false) :
    scrollView (scrollUpdate s) = (false, 0, s.scrollSpeed, s.scrollBound, s.fps) := by
  simp [scrollUpdate, h, scrollView]

theorem RenderScene_scrollView (pending : List GLError) (s : State) :
    scrollView (RenderScene pending s).1 = scrollView s := by
  simp only [RenderScene, renderArray]
  split_ifs <;> rfl

theorem RenderScene_sceneFlags (pending : List GLError) (s : State) :
    sceneFlags (RenderScene pending s).1 = sceneFlags s := by
  simp only [RenderScene, renderArray]
  split_ifs <;> rfl

theorem measureFps_none (s : State) : measureFps none s = s := rfl

theorem frame_none_scrollView (pending : List GLError) (s : State) :
    scrollView (frame none pending s) = scrollView (scrollUpdate s) := by
  simp [frame, RenderScene_scrollView, measureFps_none]

/-- Frames that do not reach the bound: for any step `f` that acts on the scroll
variables as `scrollUpdate` does, `k` steps with scrolling on subtract
`k * (scrollSpeed / fps)` when even the last value stays above `scrollBound`. -/
theorem iterate_above_bound (f : State → State)
    (hf : ∀ s, scrollView (f s) = scrollView (scrollUpdate s))
    (a sp b fp : ℚ) (hd : 0 ≤ sp / fp) :
    ∀ (k : Nat) (s : State), scrollView s = (true, a, sp, b, fp) → b < a - k * (sp / fp) →
      scrollView (f^[k] s) = (true, a - k * (sp / fp), sp, b, fp) := by
  intro k
  induction k with
  | zero => intro s hs _; simpa using hs
  | succ k ih =>
    intro s hs hb
    have hk : b < a - k * (sp / fp) := by
      push_cast at hb
      nlinarith
    have h1 := ih s hs hk
    rw [Function.iterate_succ_apply', hf]
    simp only [scrollView, Prod.mk.injEq] at h1
    obtain ⟨e1, e2, e3, e4, e5⟩ := h1
    rw [scrollUpdate_on _ e1, e2, e3, e4, e5]
    have hn : ¬ (a - k * (sp / fp) - sp / fp ≤ b) := by
      push_cast at hb
      rw [not_le]
      linarith
    rw [if_neg hn]
    push_cast
    simp only [Prod.mk.injEq, true_and, and_true]
    ring

/-- C5. With scroll disabled, one per-frame scroll update stores exactly 0 in
`scrollFactor`, whatever `scrollFactor`, `scrollSpeed`, `scrollBound` and `fps`
were; the whole frame step (with or without a new frame-rate measurement) hands
the renderer the offset 0. -/
theorem scrollUpdate_disabled_zero (s : State) (h : s.scroll = false) :
    (scrollUpdate s).scrollFactor = 0
    ∧ ∀ (measured : Option ℚ) (pending : List GLError),
        (frame measured pending s).scrollFactor = 0 := by
  have h0 := scrollUpdate_off s h
  simp only [scrollView, Prod.mk.injEq] at h0
  refine ⟨h0.2.1, ?_⟩
  intro measured pending
  have hm : (measureFps measured s).scroll = false := by
    cases measured <;> exact h
  have h1 := scrollUpdate_off _ hm
  have h2 := RenderScene_scrollView pending (scrollUpdate (measureFps measured s))
  rw [h1] at h2
  simp only [scrollView, Prod.mk.injEq] at h2
  exact h2.2.1

/-- Witness for C5: globals with a stale offset -5, speed 3, bound 0, fps 0. -/
theorem scrollUpdate_disabled_zero_witness :
    ({ State.globals with scrollFactor := -5 } : State).scroll = false
    ∧ (scrollUpdate { State.globals with scrollFactor := -5 }).scrollFactor = 0 :=
  ⟨rfl, (scrollUpdate_disabled_zero { State.globals with scrollFactor := -5 } rfl).1⟩

/-- One update with scrolling on, a negative bound, a non-negative decrement and an
offset that is not positive stores an offset in `(scrollBound, 0]`. -/
theorem scrollUpdate_in_range (s : State) (hs : s.scroll = true) (hb : s.scrollBound < 0)
    (hd : 0 ≤ s.scrollSpeed / s.fps) (hx : s.scrollFactor ≤ 0) :
    s.scrollBound < (scrollUpdate s).scrollFactor ∧ (scrollUpdate s).scrollFactor ≤ 0 := by
  have h := scrollUpdate_on s hs
  simp only [scrollView, Prod.mk.injEq] at h
  rw [h.2.1]
  split_ifs with hc
  · exact ⟨hb, le_refl 0⟩
  · exact ⟨lt_of_not_le hc, by linarith⟩

theorem frame_scrollView (measured : Option ℚ) (pending : List GLError) (s : State) :
    scrollView (frame measured pending s) = scrollView (scrollUpdate (measureFps measured s)) := by
  simp [frame, RenderScene_scrollView]

theorem keySpace_scrollView (s : State) : scrollView (keySpace s) = scrollView s := by
  unfold keySpace
  split_ifs <;> rfl

/-- What a key press does to the scroll variables. -/
theorem KeyCallback_scrollView (env : Env) (k : Key) (s : State) :
    scrollView (KeyCallback env k s)
      = match k with
        | .k1 | .k2 | .k3 | .k4 | .k5 =>
            (false, s.scrollFactor, s.scrollSpeed, s.scrollBound, s.fps)
        | .k6 => (true, s.scrollFactor, s.scrollSpeed, -12, s.fps)
        | .k7 => (true, s.scrollFactor, s.scrollSpeed, -11, s.fps)
        | .k8 => (true, s.scrollFactor, s.scrollSpeed, -13, s.fps)
        | .up => (s.scroll, s.scrollFactor, s.scrollSpeed * (12/10), s.scrollBound, s.fps)
        | .down => (s.scroll, s.scrollFactor, s.scrollSpeed * (8/10), s.scrollBound, s.fps)
        | .space | .escape | .other => scrollView s := by
  cases k <;> first | rfl | exact keySpace_scrollView s

theorem ScrollInv_key (env : Env) (k : Key) (s : State) (h : ScrollInv s) :
    ScrollInv (KeyCallback env k s) := by
  have hv := KeyCallback_scrollView env k s
  obtain ⟨h1, h2, h3, h4⟩ := h
  cases k <;> simp only [scrollView, Prod.mk.injEq] at hv <;>
    obtain ⟨e1, e2, e3, e4, e5⟩ := hv <;>
    refine ⟨by rw [e3]; first | exact h1 | positivity, by rw [e5]; exact h2,
      by rw [e2]; exact h3, ?_⟩ <;>
    rw [e1, e4] <;> first | exact h4 | simp

theorem ScrollInv_frame (measured : Option ℚ) (pending : List GLError) (s : State)
    (hm : ∀ f, measured = some f → 0 < f) (h : ScrollInv s) :
    ScrollInv (frame measured pending s)
    ∧ ((frame measured pending s).scroll = true →
        (frame measured pending s).scrollBound < (frame measured pending s).scrollFactor) := by
  obtain ⟨h1, h2, h3, h4⟩ := h
  have hI : ScrollInv (measureFps measured s) := by
    cases measured with
    | none => exact ⟨h1, h2, h3, h4⟩
    | some f => exact ⟨h1, le_of_lt (hm f rfl), h3, h4⟩
  obtain ⟨g1, g2, g3, g4⟩ := hI
  have hv := frame_scrollView measured pending s
  cases hsc : (measureFps measured s).scroll with
  | false =>
    rw [scrollUpdate_off _ hsc] at hv
    simp only [scrollView, Prod.mk.injEq] at hv
    obtain ⟨e1, e2, e3, e4, e5⟩ := hv
    refine ⟨⟨by rw [e3]; exact g1, by rw [e5]; exact g2, by rw [e2], ?_⟩, ?_⟩ <;>
      simp [e1]
  | true =>
    have hr := scrollUpdate_in_range _ hsc (g4 hsc) (div_nonneg (le_of_lt g1) g2) g3
    have hu := scrollUpdate_on _ hsc
    rw [← hv] at hu
    have hw : scrollView (frame measured pending s) = scrollView (scrollUpdate (measureFps measured s)) := hv
    simp only [scrollView, Prod.mk.injEq] at hu hw
    obtain ⟨e1, _, e3, e4, e5⟩ := hu
    refine ⟨⟨by rw [e3]; exact g1, by rw [e5]; exact g2, by rw [hw.2.1]; exact hr.2, ?_⟩, ?_⟩
    · intro _
      rw [e4]
      exact g4 hsc
    · intro _
      rw [e4, hw.2.1]
      exact hr.1

theorem ScrollInv_reachable (s : State) (h : Reachable s) : ScrollInv s := by
  induction h with
  | start env =>
    refine ⟨?_, ?_, ?_, ?_⟩
    · show (0 : ℚ) < 3
      norm_num
    · exact le_refl (0 : ℚ)
    · exact le_refl (0 : ℚ)
    · intro hc
      have hf : (false : Bool) = true := hc
      cases hf
  | key env k s _ ih => exact ScrollInv_key env k s ih
  | frame measured pending s hm _ ih => exact (ScrollInv_frame measured pending s hm ih).1

/-- While no frame rate has been measured (`fps = 0`) the offset is 0. -/
theorem offset_zero_before_first_measurement (s : State) (h : Reachable s) :
    s.fps = 0 → s.scrollFactor = 0 := by
  induction h with
  | start env => intro _; rfl
  | key env k s _ ih =>
    have hv := KeyCallback_scrollView env k s
    intro hf
    cases k <;> simp only [scrollView, Prod.mk.injEq] at hv <;>
      obtain ⟨_, e2, _, _, e5⟩ := hv <;>
      rw [e2] <;> rw [e5] at hf <;> exact ih hf
  | frame measured pending s hm hr ih =>
    have hv := frame_scrollView measured pending s
    intro hf
    cases measured with
    | some f =>
      exfalso
      have hp := hm f rfl
      cases hsc : s.scroll with
      | false =>
        rw [scrollUpdate_off _ (by exact hsc)] at hv
        simp only [scrollView, Prod.mk.injEq] at hv
        have h5 : (frame (some f) pending s).fps = f := hv.2.2.2.2
        rw [hf] at h5
        linarith
      | true =>
        rw [scrollUpdate_on _ (by exact hsc)] at hv
        simp only [scrollView, Prod.mk.injEq] at hv
        have h5 : (frame (some f) pending s).fps = f := hv.2.2.2.2
        rw [hf] at h5
        linarith
    | none =>
      rw [measureFps_none] at hv
      cases hsc : s.scroll with
      | false =>
        rw [scrollUpdate_off _ hsc] at hv
        simp only [scrollView, Prod.mk.injEq] at hv
        exact hv.2.1
      | true =>
        rw [scrollUpdate_on _ hsc] at hv
        simp only [scrollView, Prod.mk.injEq] at hv
        obtain ⟨_, e2, _, _, e5⟩ := hv
        rw [hf] at e5
        have hb := (ScrollInv_reachable s hr).2.2.2 hsc
        rw [e2, ih e5.symm, ← e5]
        simp only [div_zero, sub_zero]
        rw [if_neg (not_le.mpr hb)]

theorem reachable_iterate_frame (pending : List GLError) (s : State) (h : Reachable s) :
    ∀ k : Nat, Reachable ((frame none pending)^[k] s) := by
  intro k
  induction k with
  | zero => exact h
  | succ k ih =>
    rw [Function.iterate_succ_apply']
    exact Reachable.frame none pending _ (fun f hf => by cases hf) ih

/-- C4 as stated fails. The run start-up, key 6, 230 frames at a measured 60
frames per second, key 7 is reachable and ends with scroll enabled,
`scrollFactor = -23/2` and `scrollBound = -11`: the offset is below the bound. -/
theorem key7AfterScrolling_below_bound :
    Reachable key7AfterScrolling
    ∧ key7AfterScrolling.scroll = true
    ∧ key7AfterScrolling.scrollFactor = -23/2
    ∧ key7AfterScrolling.scrollBound = -11
    ∧ ¬ (key7AfterScrolling.scrollBound ≤ key7AfterScrolling.scrollFactor
          ∧ key7AfterScrolling.scrollFactor ≤ 0) := by
  have hr1 : Reachable (frame (some 60) [] (KeyCallback quietEnv Key.k6 (startUp quietEnv))) :=
    Reachable.frame _ _ _ (fun f hf => by cases hf; norm_num)
      (Reachable.key _ _ _ (Reachable.start _))
  have hv1 : scrollView (frame (some 60) [] (KeyCallback quietEnv Key.k6 (startUp quietEnv)))
      = (true, -1/20, 3, -12, 60) := by
    rw [frame_scrollView, scrollUpdate_on _ rfl]
    show (true, (if (0 : ℚ) - 3 / 60 ≤ -12 then (0 : ℚ) else 0 - 3 / 60), (3 : ℚ), (-12 : ℚ),
      (60 : ℚ)) = _
    norm_num
  have hv2 := iterate_above_bound (frame none []) (frame_none_scrollView [])
    (-1/20) 3 (-12) 60 (by norm_num) 229 _ hv1 (by norm_num)
  have hv3 := KeyCallback_scrollView quietEnv Key.k7
    ((frame none [])^[229] (frame (some 60) [] (KeyCallback quietEnv Key.k6 (startUp quietEnv))))
  simp only [scrollView, Prod.mk.injEq] at hv2 hv3
  obtain ⟨e1, e2, e3, e4, e5⟩ := hv3
  have hf : key7AfterScrolling.scrollFactor = -23/2 := by
    show (KeyCallback quietEnv Key.k7 _).scrollFactor = _
    rw [e2, hv2.2.1]
    norm_num
  refine ⟨Reachable.key _ _ _ (reachable_iterate_frame [] _ hr1 229), e1, hf, e4, ?_⟩
  intro hc
  have h1 := hc.1
  rw [hf] at h1
  have h2 : key7AfterScrolling.scrollBound = -11 := e4
  rw [h2] at h1
  norm_num at h1

/-- C4, amended. In every state reachable from start-up by key commands and frames
the offset `scrollFactor` is at most 0 and a state with scroll enabled has a
negative `scrollBound`; and in every state produced by a frame (the state the
renderer draws) with scroll enabled, `scrollBound < scrollFactor <= 0`. -/
theorem scroll_offset_in_range_when_drawn (s : State) (h : Reachable s) :
    s.scrollFactor ≤ 0
    ∧ (s.scroll = true → s.scrollBound < 0)
    ∧ ∀ (measured : Option ℚ) (pending : List GLError),
        (∀ f, measured = some f → 0 < f) →
        (frame measured pending s).scroll = true →
          (frame measured pending s).scrollBound < (frame measured pending s).scrollFactor
          ∧ (frame measured pending s).scrollFactor ≤ 0 := by
  have hI := ScrollInv_reachable s h
  refine ⟨hI.2.2.1, hI.2.2.2, ?_⟩
  intro measured pending hm hsc
  have hF := ScrollInv_frame measured pending s hm hI
  exact ⟨hF.2 hsc, hF.1.2.2.1⟩

/-- Witness for the amended C4: the state right after key 7 in the run above; the
next frame, at the same 60 frames per second, draws with the offset back in
range. -/
theorem scroll_offset_in_range_when_drawn_witness :
    Reachable key7AfterScrolling
    ∧ (frame none [] key7AfterScrolling).scrollBound < (frame none [] key7AfterScrolling).scrollFactor
    ∧ (frame none [] key7AfterScrolling).scrollFactor ≤ 0 := by
  have hr : Reachable key7AfterScrolling :=
    Reachable.key _ _ _ (reachable_iterate_frame [] _
      (Reachable.frame _ _ _ (fun f hf => by cases hf; norm_num)
        (Reachable.key _ _ _ (Reachable.start _))) 229)
  have hsc : (frame none [] key7AfterScrolling).scroll = true := by
    have h := frame_scrollView none [] key7AfterScrolling
    rw [scrollUpdate_on _ rfl] at h
    simp only [scrollView, Prod.mk.injEq] at h
    exact h.1
  exact ⟨hr, (scroll_offset_in_range_when_drawn key7AfterScrolling hr).2.2 none []
    (fun f hf => by cases hf) hsc⟩

/-! ## C7, C8: the Space toggle -/

/-- C7 fails at start-up. In the start-up state (`printPoints = false`,
`printLinear = true`, `scroll = false` and, because `main` never assigns it,
`text = false`) two presses of Space leave `printLinear = false`: the original
value is not restored. On every state with scroll enabled, or with `text` set, or
with `printPoints = printLinear`, two presses of Space do restore the state. -/
theorem space_twice_at_startUp :
    (∀ env : Env,
      sceneFlags (startUp env) = (false, true, true, false, false, false, false)
      ∧ sceneFlags (KeyCallback env Key.space (startUp env))
          = (true, true, true, false, false, false, false)
      ∧ sceneFlags (KeyCallback env Key.space (KeyCallback env Key.space (startUp env)))
          = (false, false, true, false, false, false, false))
    ∧ (∀ (env : Env) (s : State),
        (s.scroll = true ∨ s.text = true ∨ s.printPoints = s.printLinear) →
        KeyCallback env Key.space (KeyCallback env Key.space s) = s) := by
  refine ⟨fun env => ⟨rfl, rfl, rfl⟩, ?_⟩
  intro env s h
  obtain ⟨c, bt, pp, pl, pq, pc, sc, aw, tx, sf, ss, sb, fp, g1, g2, g3, g4, w, l⟩ := s
  simp only at h
  cases sc <;> cases aw <;> cases tx <;> cases pp <;> cases pl <;>
    simp_all [KeyCallback, keySpace]

/-- C8 as stated fails: in scene 1 (entered from start-up) Space switches
`printPoints` and `printLinear` from true to false. -/
theorem space_hides_points_in_scene1 :
    sceneFlags (KeyCallback quietEnv Key.k1 (startUp quietEnv))
      = (true, true, true, false, false, false, false)
    ∧ sceneFlags (KeyCallback quietEnv Key.space (KeyCallback quietEnv Key.k1 (startUp quietEnv)))
      = (false, false, true, false, false, false, false)
    ∧ (KeyCallback quietEnv Key.space (KeyCallback quietEnv Key.k1 (startUp quietEnv))).printPoints
      ≠ (KeyCallback quietEnv Key.k1 (startUp quietEnv)).printPoints := by
  refine ⟨rfl, rfl, ?_⟩
  intro h
  have h1 : (false : Bool) = true := h
  cases h1

/-- C8, amended. Space never changes a bucket's content, the counters, `printQuad`,
`printCubic`, `scroll`, `text` or the scroll variables. With scroll enabled it
flips `awesome` and changes nothing else. With scroll disabled it leaves `awesome`
alone; if `text` is set it changes nothing at all, and otherwise it sets both
`printPoints` and `printLinear` to false when both were true and to true when
they were not. -/
theorem space_frame (env : Env) (s : State) :
    ((KeyCallback env Key.space s).geomPoints = s.geomPoints
      ∧ (KeyCallback env Key.space s).geomLines = s.geomLines
      ∧ (KeyCallback env Key.space s).geomQuad = s.geomQuad
      ∧ (KeyCallback env Key.space s).geomCubic = s.geomCubic
      ∧ (KeyCallback env Key.space s).toCounters = s.toCounters)
    ∧ ((KeyCallback env Key.space s).printQuad = s.printQuad
      ∧ (KeyCallback env Key.space s).printCubic = s.printCubic
      ∧ (KeyCallback env Key.space s).text = s.text
      ∧ scrollView (KeyCallback env Key.space s) = scrollView s)
    ∧ (s.scroll = true →
        KeyCallback env Key.space s = { s with awesome := !s.awesome })
    ∧ (s.scroll = false → s.text = true → KeyCallback env Key.space s = s)
    ∧ (s.scroll = false → s.text = false →
        KeyCallback env Key.space s
          = { s with printPoints := !(s.printPoints && s.printLinear),
                     printLinear := !(s.printPoints && s.printLinear) }) := by
  refine ⟨?_, ?_, ?_, ?_, ?_⟩
  · simp only [KeyCallback, keySpace]
    split_ifs <;> exact ⟨rfl, rfl, rfl, rfl, rfl⟩
  · simp only [KeyCallback, keySpace]
    split_ifs <;> exact ⟨rfl, rfl, rfl, rfl⟩
  · intro h
    cases ha : s.awesome <;> simp [KeyCallback, keySpace, h, ha]
  · intro h ht
    simp [KeyCallback, keySpace, h, ht]
  · intro h ht
    cases hp : s.printPoints <;> cases hl : s.printLinear <;>
      simp [KeyCallback, keySpace, h, ht, hp, hl]

/-! ## C9, C10: the scene keys -/

/-- C9 as stated fails: key 1 pressed in the start-up state leaves `scrollBound`
at 0, key 1 pressed after key 6 leaves it at -12, so the tuples after the same
key differ. -/
theorem key1_keeps_earlier_scrollBound :
    sceneTuple (KeyCallback quietEnv Key.k1 (startUp quietEnv))
      = (true, true, true, false, false, 0, false, false)
    ∧ sceneTuple (KeyCallback quietEnv Key.k1 (KeyCallback quietEnv Key.k6 (startUp quietEnv)))
      = (true, true, true, false, false, -12, false, false)
    ∧ sceneTuple (KeyCallback quietEnv Key.k1 (startUp quietEnv))
      ≠ sceneTuple (KeyCallback quietEnv Key.k1 (KeyCallback quietEnv Key.k6 (startUp quietEnv))) := by
  have h1 : sceneTuple (KeyCallback quietEnv Key.k1 (startUp quietEnv))
      = (true, true, true, false, false, 0, false, false) := rfl
  have h2 : sceneTuple (KeyCallback quietEnv Key.k1
      (KeyCallback quietEnv Key.k6 (startUp quietEnv)))
      = (true, true, true, false, false, -12, false, false) := rfl
  refine ⟨h1, h2, ?_⟩
  rw [h1, h2]
  intro h
  simp only [Prod.mk.injEq] at h
  norm_num at h

/-- C9, amended. After a scene key the flags `printPoints`, `printLinear`,
`printQuad`, `printCubic`, `scroll`, `text`, `awesome` have values fixed by the key
alone (listed here in that order), whatever the prior state, fonts and OpenGL
errors; keys 6, 7 and 8 also assign `scrollBound` (-12, -11, -13), while keys 1 to
5 leave `scrollBound` as it was. -/
theorem scene_key_assignment (env : Env) (s : State) :
    (sceneFlags (KeyCallback env Key.k1 s) = (true, true, true, false, false, false, false)
      ∧ (KeyCallback env Key.k1 s).scrollBound = s.scrollBound)
    ∧ (sceneFlags (KeyCallback env Key.k2 s) = (true, true, false, true, false, false, false)
      ∧ (KeyCallback env Key.k2 s).scrollBound = s.scrollBound)
    ∧ (sceneFlags (KeyCallback env Key.k3 s) = (false, true, true, false, false, true, false)
      ∧ (KeyCallback env Key.k3 s).scrollBound = s.scrollBound)
    ∧ (sceneFlags (KeyCallback env Key.k4 s) = (false, true, true, true, false, true, false)
      ∧ (KeyCallback env Key.k4 s).scrollBound = s.scrollBound)
    ∧ (sceneFlags (KeyCallback env Key.k5 s) = (false, true, true, false, false, true, false)
      ∧ (KeyCallback env Key.k5 s).scrollBound = s.scrollBound)
    ∧ (sceneFlags (KeyCallback env Key.k6 s) = (false, true, true, false, true, true, false)
      ∧ (KeyCallback env Key.k6 s).scrollBound = -12)
    ∧ (sceneFlags (KeyCallback env Key.k7 s) = (false, true, true, false, true, true, false)
      ∧ (KeyCallback env Key.k7 s).scrollBound = -11)
    ∧ (sceneFlags (KeyCallback env Key.k8 s) = (false, true, true, true, true, true, false)
      ∧ (KeyCallback env Key.k8 s).scrollBound = -13) :=
  ⟨⟨rfl, rfl⟩, ⟨rfl, rfl⟩, ⟨rfl, rfl⟩, ⟨rfl, rfl⟩, ⟨rfl, rfl⟩, ⟨rfl, rfl⟩, ⟨rfl, rfl⟩, ⟨rfl, rfl⟩⟩

theorem CheckGLErrors_foldl_fst (pending : List GLError) :
    ∀ (b : Bool) (l : List String),
      (pending.foldl (fun r flag => (true, r.2 ++ [GLError.describe flag])) (b, l)).1
        = (b || !pending.isEmpty) := by
  induction pending with
  | nil => intro b l; simp
  | cons e es ih => intro b l; simp [ih]

/-- `InitializeGeometry` returns false exactly when an OpenGL error is pending. -/
theorem InitializeGeometry_ok (points cols : Buffer ℚ) (n : Nat) (scale transform : ℚ)
    (pending : List GLError) :
    (InitializeGeometry points cols n scale transform pending).2.1 = pending.isEmpty := by
  simp [InitializeGeometry, CheckGLErrors, CheckGLErrors_foldl_fst]

theorem reportUpload_mono (r : MyGeometry × Bool × List String) (log : List String)
    (m : String) (h : m ∈ log) : m ∈ reportUpload r log := by
  unfold reportUpload
  split_ifs <;> simp [h]

theorem reportUpload_fail (r : MyGeometry × Bool × List String) (log : List String)
    (h : r.2.1 = false) : failMessage ∈ reportUpload r log := by
  simp [reportUpload, h]

/-- A failed upload is reported by the command that issued it. -/
theorem failure_is_logged (env : Env) (k : Key) (s : State) (b : Bucket)
    (hb : b ∈ uploads k) (he : env.glErrors b ≠ []) :
    failMessage ∈ (KeyCallback env k s).log := by
  have hfail : ∀ (points cols : Buffer ℚ) (n : Nat) (sc tr : ℚ),
      (InitializeGeometry points cols n sc tr (env.glErrors b)).2.1 = false := by
    intro points cols n sc tr
    rw [InitializeGeometry_ok]
    cases hp : env.glErrors b with
    | nil => exact absurd hp he
    | cons e es => rfl
  cases k <;> simp only [uploads, List.mem_cons, List.mem_singleton, List.not_mem_nil,
    or_false] at hb
  all_goals
    rcases hb with rfl | rfl | rfl
  all_goals
    first
    | exact reportUpload_fail _ _ (hfail _ _ _ _ _)
    | exact reportUpload_mono _ _ _ (reportUpload_fail _ _ (hfail _ _ _ _ _))
    | exact reportUpload_mono _ _ _ (reportUpload_mono _ _ _
        (reportUpload_fail _ _ (hfail _ _ _ _ _)))

/-- C10 as stated fails: with an OpenGL error pending, `InitializeGeometry` returns
false for the quadratic bucket of key 1, the failure message is printed, and yet
after key 1 the flags are those of scene 1, not those held before the command
(`printPoints` was false at start-up and is true afterwards). -/
theorem key1_not_abandoned_on_failure :
    (InitializeGeometry (ofList verArrayQuad1) (ofList colsQuad1) 16 3 0
        (failingEnv.glErrors Bucket.quad)).2.1 = false
    ∧ failMessage ∈ (KeyCallback failingEnv Key.k1 (startUp failingEnv)).log
    ∧ sceneFlags (startUp failingEnv) = (false, true, true, false, false, false, false)
    ∧ sceneFlags (KeyCallback failingEnv Key.k1 (startUp failingEnv))
        = (true, true, true, false, false, false, false)
    ∧ sceneFlags (KeyCallback failingEnv Key.k1 (startUp failingEnv))
        ≠ sceneFlags (startUp failingEnv) := by
  refine ⟨InitializeGeometry_ok _ _ _ _ _ _, ?_, rfl, rfl, ?_⟩
  · apply failure_is_logged failingEnv Key.k1 _ Bucket.quad
    · simp [uploads]
    · simp [failingEnv]
  · intro h
    have h1 : (true, true, true, false, false, false, false)
        = (false, true, true, false, false, false, false) := h
    simp at h1

set_option maxHeartbeats 2000000 in
/-- The pending OpenGL errors influence nothing but the printed text. -/
theorem KeyCallback_glErrors_only_log (env : Env) (k : Key) (s : State)
    (errs : Bucket → List GLError) :
    sceneFlags (KeyCallback { env with glErrors := errs } k s)
        = sceneFlags (KeyCallback env k s)
    ∧ scrollView (KeyCallback { env with glErrors := errs } k s)
        = scrollView (KeyCallback env k s)
    ∧ (KeyCallback { env with glErrors := errs } k s).toCounters
        = (KeyCallback env k s).toCounters
    ∧ (KeyCallback { env with glErrors := errs } k s).geomPoints
        = (KeyCallback env k s).geomPoints
    ∧ (KeyCallback { env with glErrors := errs } k s).geomLines
        = (KeyCallback env k s).geomLines
    ∧ (KeyCallback { env with glErrors := errs } k s).geomQuad
        = (KeyCallback env k s).geomQuad
    ∧ (KeyCallback { env with glErrors := errs } k s).geomCubic
        = (KeyCallback env k s).geomCubic := by
  cases k <;> refine ⟨?_, ?_, ?_, ?_, ?_, ?_, ?_⟩ <;> rfl

/-- C10, amended. A failure reported by `InitializeGeometry` during a scene command
does not abandon the command: whatever OpenGL errors are pending, the flags, the
scroll variables, the counters and the content of every bucket after the command
are the same as with no error pending, so the flags are those the key assigns; the
only difference is in the printed text, where the failure message appears for
each command one of whose uploads had an error pending. -/
theorem scene_command_proceeds_on_failure (env : Env) (k : Key) (s : State) :
    (∀ errs : Bucket → List GLError,
      sceneFlags (KeyCallback { env with glErrors := errs } k s)
          = sceneFlags (KeyCallback env k s)
      ∧ scrollView (KeyCallback { env with glErrors := errs } k s)
          = scrollView (KeyCallback env k s)
      ∧ (KeyCallback { env with glErrors := errs } k s).toCounters
          = (KeyCallback env k s).toCounters
      ∧ (KeyCallback { env with glErrors := errs } k s).geomPoints
          = (KeyCallback env k s).geomPoints
      ∧ (KeyCallback { env with glErrors := errs } k s).geomLines
          = (KeyCallback env k s).geomLines
      ∧ (KeyCallback { env with glErrors := errs } k s).geomQuad
          = (KeyCallback env k s).geomQuad
      ∧ (KeyCallback { env with glErrors := errs } k s).geomCubic
          = (KeyCallback env k s).geomCubic)
    ∧ (∀ b : Bucket, b ∈ uploads k → env.glErrors b ≠ [] →
        failMessage ∈ (KeyCallback env k s).log) :=
  ⟨fun errs => KeyCallback_glErrors_only_log env k s errs,
   fun b hb he => failure_is_logged env k s b hb he⟩

/-! ## C12: the draws of `RenderScene` -/

/-- C12. For every combination of the four visibility flags `RenderScene` issues
one draw for each visible bucket and none for an invisible one, in the fixed order
lines, quadratics, cubics, point markers, and the value of `bezierType` sent with
each draw is the bucket's own tag (1, 2, 3, 0): the draws are `drawOrder` filtered
by the flags. -/
theorem RenderScene_draws (pending : List GLError) (s : State) :
    (RenderScene pending s).2 = drawOrder.filter (fun d => visible s d.1) := by
  obtain ⟨c, bt, pp, pl, pq, pc, sc, aw, tx, sf, ss, sb, fp, g1, g2, g3, g4, w, l⟩ := s
  cases pp <;> cases pl <;> cases pq <;> cases pc <;> rfl

/-! ## C18: the scroll speed -/

/-- C18. In exact arithmetic `scrollSpeed` is positive in every reachable state. It
is 3 after start-up, Up multiplies it by 1.2, Down multiplies it by 0.8, and
every other key and every frame leaves it as it is. Up followed by Down, in either
order, multiplies it by 0.96, which never restores a positive speed. -/
theorem scrollSpeed_positive :
    (∀ s : State, Reachable s → 0 < s.scrollSpeed)
    ∧ (∀ env : Env, (startUp env).scrollSpeed = 3)
    ∧ (∀ (env : Env) (s : State),
        (KeyCallback env Key.up s).scrollSpeed = s.scrollSpeed * (12/10)
        ∧ (KeyCallback env Key.down s).scrollSpeed = s.scrollSpeed * (8/10))
    ∧ (∀ (env : Env) (k : Key) (s : State), k ≠ Key.up → k ≠ Key.down →
        (KeyCallback env k s).scrollSpeed = s.scrollSpeed)
    ∧ (∀ (measured : Option ℚ) (pending : List GLError) (s : State),
        (frame measured pending s).scrollSpeed = s.scrollSpeed)
    ∧ (∀ (env : Env) (s : State),
        (KeyCallback env Key.down (KeyCallback env Key.up s)).scrollSpeed
          = s.scrollSpeed * (96/100)
        ∧ (KeyCallback env Key.up (KeyCallback env Key.down s)).scrollSpeed
          = s.scrollSpeed * (96/100)
        ∧ (0 < s.scrollSpeed →
            (KeyCallback env Key.down (KeyCallback env Key.up s)).scrollSpeed
              < s.scrollSpeed)) := by
  refine ⟨fun s h => (ScrollInv_reachable s h).1, fun _ => rfl, fun _ _ => ⟨rfl, rfl⟩,
    ?_, ?_, ?_⟩
  · intro env k s hu hd
    have hv := KeyCallback_scrollView env k s
    cases k <;> simp only [scrollView, Prod.mk.injEq] at hv <;>
      first
      | exact hv.2.2.1
      | exact absurd rfl hu
      | exact absurd rfl hd
  · intro measured pending s
    have hv := frame_scrollView measured pending s
    have hm : (measureFps measured s).scrollSpeed = s.scrollSpeed := by
      cases measured <;> rfl
    cases hsc : (measureFps measured s).scroll with
    | false =>
      rw [scrollUpdate_off _ hsc] at hv
      simp only [scrollView, Prod.mk.injEq] at hv
      rw [hv.2.2.1, hm]
    | true =>
      rw [scrollUpdate_on _ hsc] at hv
      simp only [scrollView, Prod.mk.injEq] at hv
      rw [hv.2.2.1, hm]
  · intro env s
    have e1 : (KeyCallback env Key.down (KeyCallback env Key.up s)).scrollSpeed
        = s.scrollSpeed * (12/10) * (8/10) := rfl
    have e2 : (KeyCallback env Key.up (KeyCallback env Key.down s)).scrollSpeed
        = s.scrollSpeed * (8/10) * (12/10) := rfl
    refine ⟨by rw [e1]; ring, by rw [e2]; ring, ?_⟩
    intro hp
    rw [e1]
    nlinarith

/-! ## C17, C11: counting pass against fill pass -/

theorem countFold (segs : List (MySegment ℚ)) :
    ∀ c : Counters,
      (segs.foldl countSegment c).lineCount
          = c.lineCount + 8 * (segs.filter (fun s => decide (s.degree = ((1 : Nat) : Int)))).length
      ∧ (segs.foldl countSegment c).quadraticCount
          = c.quadraticCount
            + 8 * (segs.filter (fun s => decide (s.degree = ((2 : Nat) : Int)))).length
      ∧ (segs.foldl countSegment c).cubicCount
          = c.cubicCount
            + 8 * (segs.filter (fun s => decide (s.degree = ((3 : Nat) : Int)))).length := by
  induction segs with
  | nil => intro c; simp
  | cons seg rest ih =>
    intro c
    obtain ⟨h1, h2, h3⟩ := ih (countSegment c seg)
    simp only [List.foldl_cons]
    rw [h1, h2, h3]
    simp only [Nat.cast_one, Nat.cast_ofNat, List.filter_cons]
    unfold countSegment
    by_cases d1 : seg.degree = 1
    · simp [d1]; omega
    · by_cases d2 : seg.degree = 2
      · simp [d2]; omega
      · by_cases d3 : seg.degree = 3
        · simp [d3]; omega
        · simp [d1, d2, d3]

/-- The counting pass adds 8 per segment of each degree. -/
theorem glyphCount_total (glyph : MyGlyph ℚ) (c : Counters) :
    (glyphCount glyph c).lineCount = c.lineCount + 8 * (segmentsOfDegree glyph 1).length
    ∧ (glyphCount glyph c).quadraticCount
        = c.quadraticCount + 8 * (segmentsOfDegree glyph 2).length
    ∧ (glyphCount glyph c).cubicCount
        = c.cubicCount + 8 * (segmentsOfDegree glyph 3).length := by
  have hfl : glyphCount glyph c = glyph.contours.flatten.foldl countSegment c := by
    unfold glyphCount
    generalize glyph.contours = cs
    induction cs generalizing c with
    | nil => rfl
    | cons x xs ih => simp [List.foldl_append, ih]
  rw [hfl]
  exact countFold glyph.contours.flatten c

theorem countLoop_total (font : Char → MyGlyph ℚ) (str : List Char) :
    ∀ c : Counters,
      (countLoop font str c).lineCount = c.lineCount + 8 * segmentTotal (str.map font) 1
      ∧ (countLoop font str c).quadraticCount
          = c.quadraticCount + 8 * segmentTotal (str.map font) 2
      ∧ (countLoop font str c).cubicCount
          = c.cubicCount + 8 * segmentTotal (str.map font) 3 := by
  induction str with
  | nil => intro c; simp [countLoop, segmentTotal]
  | cons ch rest ih =>
    intro c
    obtain ⟨h1, h2, h3⟩ := ih (glyphCount (font ch) c)
    obtain ⟨g1, g2, g3⟩ := glyphCount_total (font ch) c
    simp only [countLoop, List.foldl_cons] at h1 h2 h3 ⊢
    rw [h1, h2, h3, g1, g2, g3]
    simp only [segmentTotal, List.map_cons, List.sum_cons]
    refine ⟨by ring, by ring, by ring⟩

/-- The kerned layout loop advances the counter of `d` by 8 per segment of degree
`d` over all glyphs, and leaves alone every cell of that buffer below the old or
from the new counter on. -/
theorem layoutKerned_total (scale start yTrans kern : ℚ) (d : Nat)
    (hd : d = 1 ∨ d = 2 ∨ d = 3) (glyphs : List (MyGlyph ℚ)) :
    ∀ (adv : ℚ) (st : PackState ℚ),
      (layoutKerned scale start yTrans kern glyphs adv st).2.cntOf d
          = st.cntOf d + 8 * segmentTotal glyphs d
      ∧ ∀ i, (i < st.cntOf d
              ∨ (layoutKerned scale start yTrans kern glyphs adv st).2.cntOf d ≤ i) →
          (layoutKerned scale start yTrans kern glyphs adv st).2.bufOf d i = st.bufOf d i := by
  induction glyphs with
  | nil => intro adv st; simp [layoutKerned, segmentTotal]
  | cons g gs ih =>
    intro adv st
    rw [layoutKerned_cons]
    obtain ⟨hc, _, hu⟩ := glyphToGeom_degree g scale (start + adv) yTrans d hd st
    obtain ⟨ic, iu⟩ := ih (adv + (g.advance - kern))
      (glyphToGeom g scale (start + adv) yTrans st)
    have htot : segmentTotal (g :: gs) d
        = (segmentsOfDegree g d).length + segmentTotal gs d := by
      simp [segmentTotal]
    refine ⟨by rw [ic, hc, htot]; ring, ?_⟩
    intro i hi
    rcases hi with hi | hi
    · rw [iu i (Or.inl (by rw [hc]; omega))]
      exact hu i (Or.inl hi)
    · rw [iu i (Or.inr hi)]
      rw [ic] at hi
      exact hu i (Or.inr (by omega))

theorem segmentTotal_append (a b : List (MyGlyph ℚ)) (d : Nat) :
    segmentTotal (a ++ b) d = segmentTotal a d + segmentTotal b d := by
  simp [segmentTotal]

/-- A kerned fill loop over the string that was counted stays within the declared
arrays. -/
theorem FillWithin_kerned (env : Env) (prior : Counters) (font : Char → MyGlyph ℚ)
    (str : List Char) (scale start yTrans kern : ℚ) :
    FillWithin (countLoop font str prior) prior
      (layoutKerned scale start yTrans kern (str.map font) 0 (freshArrays env)).2 env := by
  obtain ⟨c1, c2, c3⟩ := countLoop_total font str prior
  obtain ⟨l1, u1⟩ := layoutKerned_total scale start yTrans kern 1 (Or.inl rfl)
    (str.map font) 0 (freshArrays env)
  obtain ⟨l2, u2⟩ := layoutKerned_total scale start yTrans kern 2 (Or.inr (Or.inl rfl))
    (str.map font) 0 (freshArrays env)
  obtain ⟨l3, u3⟩ := layoutKerned_total scale start yTrans kern 3 (Or.inr (Or.inr rfl))
    (str.map font) 0 (freshArrays env)
  generalize (layoutKerned scale start yTrans kern (str.map font) 0 (freshArrays env)).2 = X
    at l1 u1 l2 u2 l3 u3 ⊢
  simp [PackState.cntOf, PackState.bufOf, freshArrays] at l1 u1
  simp [PackState.cntOf, PackState.bufOf, freshArrays] at l2 u2
  simp [PackState.cntOf, PackState.bufOf, freshArrays] at l3 u3
  refine ⟨⟨by rw [c1, l1], by rw [c2, l2], by rw [c3, l3]⟩,
    ⟨by rw [c1, l1]; omega, by rw [c2, l2]; omega, by rw [c3, l3]; omega⟩, ?_, ?_, ?_⟩
  · exact u1
  · exact u2
  · exact u3

/-- The fill loop without kerning correction stays within the declared arrays as
well. -/
theorem FillWithin_plain (env : Env) (prior : Counters) (font : Char → MyGlyph ℚ)
    (str : List Char) (scale start yTrans : ℚ) :
    FillWithin (countLoop font str prior) prior
      (layoutPlain scale start yTrans (str.map font) 0 (freshArrays env)).2 env := by
  rw [layoutPlain_eq_kerned]
  exact FillWithin_kerned env prior font str scale start yTrans 0

/-- The two fill loops of start-up together cover the string that was counted and
stay within the declared arrays. -/
theorem FillWithin_start (env : Env) :
    FillWithin (countLoop (env.font "Fonts/Dreamscar.ttf") intro.toList State.globals.toCounters)
      State.globals.toCounters (startFill env) env := by
  obtain ⟨c1, c2, c3⟩ := countLoop_total (env.font "Fonts/Dreamscar.ttf") intro.toList
    State.globals.toCounters
  have hsplit : intro.toList.map (env.font "Fonts/Dreamscar.ttf")
      = (intro.toList.take 22).map (env.font "Fonts/Dreamscar.ttf")
        ++ (intro.toList.drop 22).map (env.font "Fonts/Dreamscar.ttf") := by
    rw [← List.map_append, List.take_append_drop]
  rw [hsplit, segmentTotal_append] at c1 c2 c3
  have key : ∀ d : Nat, d = 1 ∨ d = 2 ∨ d = 3 →
      (startFill env).cntOf d
        = 8 * segmentTotal ((intro.toList.take 22).map (env.font "Fonts/Dreamscar.ttf")) d
          + 8 * segmentTotal ((intro.toList.drop 22).map (env.font "Fonts/Dreamscar.ttf")) d
      ∧ ∀ i, (startFill env).cntOf d ≤ i →
          (startFill env).bufOf d i = (freshArrays env).bufOf d i := by
    intro d hd
    unfold startFill
    rw [layoutPlain_eq_kerned, layoutPlain_eq_kerned]
    obtain ⟨a1, a2⟩ := layoutKerned_total (1/10) (-55/10) 1 0 d hd
      ((intro.toList.take 22).map (env.font "Fonts/Dreamscar.ttf")) 0 (freshArrays env)
    obtain ⟨b1, b2⟩ := layoutKerned_total (17/100) (-45/10) (-1) 0 d hd
      ((intro.toList.drop 22).map (env.font "Fonts/Dreamscar.ttf")) 0
      (layoutKerned (1/10) (-55/10) 1 0
        ((intro.toList.take 22).map (env.font "Fonts/Dreamscar.ttf")) 0 (freshArrays env)).2
    have hz : (freshArrays env).cntOf d = 0 := by
      rcases hd with rfl | rfl | rfl <;> rfl
    rw [hz, Nat.zero_add] at a1
    refine ⟨by rw [b1, a1], ?_⟩
    intro i hi
    rw [b2 i (Or.inr hi)]
    rw [b1] at hi
    exact a2 i (Or.inr (by omega))
  obtain ⟨k1', v1'⟩ := key 1 (Or.inl rfl)
  obtain ⟨k2', v2'⟩ := key 2 (Or.inr (Or.inl rfl))
  obtain ⟨k3', v3'⟩ := key 3 (Or.inr (Or.inr rfl))
  have k1 : (startFill env).lineCount
      = 8 * segmentTotal ((intro.toList.take 22).map (env.font "Fonts/Dreamscar.ttf")) 1
        + 8 * segmentTotal ((intro.toList.drop 22).map (env.font "Fonts/Dreamscar.ttf")) 1 := k1'
  have k2 : (startFill env).quadraticCount
      = 8 * segmentTotal ((intro.toList.take 22).map (env.font "Fonts/Dreamscar.ttf")) 2
        + 8 * segmentTotal ((intro.toList.drop 22).map (env.font "Fonts/Dreamscar.ttf")) 2 := k2'
  have k3 : (startFill env).cubicCount
      = 8 * segmentTotal ((intro.toList.take 22).map (env.font "Fonts/Dreamscar.ttf")) 3
        + 8 * segmentTotal ((intro.toList.drop 22).map (env.font "Fonts/Dreamscar.ttf")) 3 := k3'
  have v1 : ∀ i, (startFill env).lineCount ≤ i →
      (startFill env).verLines i = env.verArrayLines i := v1'
  have v2 : ∀ i, (startFill env).quadraticCount ≤ i →
      (startFill env).verQuad i = env.verArrayQuad i := v2'
  have v3 : ∀ i, (startFill env).cubicCount ≤ i →
      (startFill env).verCub i = env.verArrayCub i := v3'
  have g1 : State.globals.toCounters.lineCount = 0 := rfl
  have g2 : State.globals.toCounters.quadraticCount = 0 := rfl
  have g3 : State.globals.toCounters.cubicCount = 0 := rfl
  rw [g1] at c1
  rw [g2] at c2
  rw [g3] at c3
  refine ⟨⟨by rw [c1, k1, g1]; ring, by rw [c2, k2, g2]; ring, by rw [c3, k3, g3]; ring⟩,
    ⟨by rw [c1, k1]; omega, by rw [c2, k2]; omega, by rw [c3, k3]; omega⟩, v1, v2, v3⟩

/-- C17. In every glyph scene (keys 3 to 8 and start-up), for every font and every
value of the counters before the command, the fill pass stays inside the arrays
the counting pass sized: each declared length equals the counter left by the
previous scene plus the number of floats the fill pass writes (8 per segment of
that degree), so it is at least that number, and no cell at or beyond the number
of floats written is touched. The counters the command leaves are those of the
fill pass. -/
theorem fill_stays_within_declared_arrays (env : Env) (s : State) :
    (FillWithin (declaredLengths (env.font (sceneFontFile Key.k3)) (sceneString Key.k3) s)
        s.toCounters (fillOf env Key.k3) env
      ∧ (KeyCallback env Key.k3 s).toCounters = (fillOf env Key.k3).toCounters)
    ∧ (FillWithin (declaredLengths (env.font (sceneFontFile Key.k4)) (sceneString Key.k4) s)
        s.toCounters (fillOf env Key.k4) env
      ∧ (KeyCallback env Key.k4 s).toCounters = (fillOf env Key.k4).toCounters)
    ∧ (FillWithin (declaredLengths (env.font (sceneFontFile Key.k5)) (sceneString Key.k5) s)
        s.toCounters (fillOf env Key.k5) env
      ∧ (KeyCallback env Key.k5 s).toCounters = (fillOf env Key.k5).toCounters)
    ∧ (FillWithin (declaredLengths (env.font (sceneFontFile Key.k6)) (sceneString Key.k6) s)
        s.toCounters (fillOf env Key.k6) env
      ∧ (KeyCallback env Key.k6 s).toCounters = (fillOf env Key.k6).toCounters)
    ∧ (FillWithin (declaredLengths (env.font (sceneFontFile Key.k7)) (sceneString Key.k7) s)
        s.toCounters (fillOf env Key.k7) env
      ∧ (KeyCallback env Key.k7 s).toCounters = (fillOf env Key.k7).toCounters)
    ∧ (FillWithin (declaredLengths (env.font (sceneFontFile Key.k8)) (sceneString Key.k8) s)
        s.toCounters (fillOf env Key.k8) env
      ∧ (KeyCallback env Key.k8 s).toCounters = (fillOf env Key.k8).toCounters)
    ∧ (FillWithin (declaredLengths (env.font "Fonts/Dreamscar.ttf") intro.toList State.globals)
        State.globals.toCounters (startFill env) env
      ∧ (startUp env).toCounters = (startFill env).toCounters) :=
  ⟨⟨FillWithin_kerned env s.toCounters _ _ _ _ _ _, rfl⟩,
   ⟨FillWithin_kerned env s.toCounters _ _ _ _ _ _, rfl⟩,
   ⟨FillWithin_kerned env s.toCounters _ _ _ _ _ _, rfl⟩,
   ⟨FillWithin_kerned env s.toCounters _ _ _ _ _ _, rfl⟩,
   ⟨FillWithin_plain env s.toCounters _ _ _ _ _, rfl⟩,
   ⟨FillWithin_plain env s.toCounters _ _ _ _ _, rfl⟩,
   ⟨FillWithin_start env, rfl⟩⟩

theorem WholePatches_upload (points cols : Buffer ℚ) (n : Nat) (scale transform : ℚ)
    (pending : List GLError) (h : n % 4 = 0) :
    WholePatches (InitializeGeometry points cols n scale transform pending).1 := by
  refine ⟨h, ?_, ?_, ?_⟩
  · show 4 * (n / 4) = n
    omega
  · simp [InitializeGeometry]
  · simp [InitializeGeometry]

/-- After a fill pass from counters 0 every counter is a multiple of 8. -/
theorem fillOf_counts (env : Env) (k : Key) :
    (fillOf env k).lineCount % 8 = 0 ∧ (fillOf env k).quadraticCount % 8 = 0
    ∧ (fillOf env k).cubicCount % 8 = 0 := by
  have hk : ∀ (scale start yTrans kern : ℚ) (glyphs : List (MyGlyph ℚ)),
      (layoutKerned scale start yTrans kern glyphs 0 (freshArrays env)).2.lineCount % 8 = 0
      ∧ (layoutKerned scale start yTrans kern glyphs 0 (freshArrays env)).2.quadraticCount % 8 = 0
      ∧ (layoutKerned scale start yTrans kern glyphs 0 (freshArrays env)).2.cubicCount % 8
          = 0 := by
    intro scale start yTrans kern glyphs
    have l1 := (layoutKerned_total scale start yTrans kern 1 (Or.inl rfl) glyphs 0
      (freshArrays env)).1
    have l2 := (layoutKerned_total scale start yTrans kern 2 (Or.inr (Or.inl rfl)) glyphs 0
      (freshArrays env)).1
    have l3 := (layoutKerned_total scale start yTrans kern 3 (Or.inr (Or.inr rfl)) glyphs 0
      (freshArrays env)).1
    generalize (layoutKerned scale start yTrans kern glyphs 0 (freshArrays env)).2 = X
      at l1 l2 l3 ⊢
    simp [PackState.cntOf, freshArrays] at l1 l2 l3
    omega
  cases k <;> first
    | exact hk _ _ _ _ _
    | (simp only [fillOf]; rw [layoutPlain_eq_kerned]; exact hk _ _ _ _ _)
    | exact ⟨rfl, rfl, rfl⟩

theorem startFill_counts (env : Env) :
    (startFill env).lineCount % 8 = 0 ∧ (startFill env).quadraticCount % 8 = 0
    ∧ (startFill env).cubicCount % 8 = 0 := by
  obtain ⟨⟨c1, c2, c3⟩, _⟩ := FillWithin_start env
  obtain ⟨t1, t2, t3⟩ := countLoop_total (env.font "Fonts/Dreamscar.ttf") intro.toList
    State.globals.toCounters
  have g1 : State.globals.toCounters.lineCount = 0 := rfl
  have g2 : State.globals.toCounters.quadraticCount = 0 := rfl
  have g3 : State.globals.toCounters.cubicCount = 0 := rfl
  rw [t1, g1] at c1
  rw [t2, g2] at c2
  rw [t3, g3] at c3
  omega

theorem WholePatches_uploadLinesQuad (env : Env) (scale transform : ℚ) (st : PackState ℚ)
    (s : State) (h1 : st.lineCount % 8 = 0) (h2 : st.quadraticCount % 8 = 0) :
    WholePatches (uploadLinesQuad env scale transform st s).geomLines
    ∧ WholePatches (uploadLinesQuad env scale transform st s).geomQuad :=
  ⟨WholePatches_upload st.verLines (fillCols (st.quadraticCount * 3 / 2) env.cols)
      (st.lineCount / 2) scale transform (env.glErrors Bucket.lines) (by omega),
   WholePatches_upload st.verQuad (fillCols (st.quadraticCount * 3 / 2) env.cols)
      (st.quadraticCount / 2) scale transform (env.glErrors Bucket.quad) (by omega)⟩

theorem WholePatches_uploadLinesQuadCubic (env : Env) (scale transform : ℚ)
    (st : PackState ℚ) (s : State) (h1 : st.lineCount % 8 = 0)
    (h2 : st.quadraticCount % 8 = 0) (h3 : st.cubicCount % 8 = 0) :
    WholePatches (uploadLinesQuadCubic env scale transform st s).geomLines
    ∧ WholePatches (uploadLinesQuadCubic env scale transform st s).geomQuad
    ∧ WholePatches (uploadLinesQuadCubic env scale transform st s).geomCubic :=
  ⟨WholePatches_upload st.verLines (fillCols (st.quadraticCount * 3 / 2) env.cols)
      (st.lineCount / 2) scale transform (env.glErrors Bucket.lines) (by omega),
   WholePatches_upload st.verQuad (fillCols (st.quadraticCount * 3 / 2) env.cols)
      (st.quadraticCount / 2) scale transform (env.glErrors Bucket.quad) (by omega),
   WholePatches_upload st.verCub (fillCols (st.quadraticCount * 3 / 2) env.cols)
      (st.cubicCount / 2) scale transform (env.glErrors Bucket.cubic) (by omega)⟩

/-- C11. Every `InitializeGeometry` call issued by start-up and by the scene keys 1
to 8 uploads a vertex count that is an exact multiple of 4, for every font
outline and every prior state: the bucket's `elementCount` (the count handed to the
`GL_PATCHES` draw) is divisible by 4, equals 4 times the patch count
`elementCount / 4`, and is the number of uploaded vertices and colours. -/
theorem upload_counts_are_whole_patches :
    (∀ env : Env, WholePatches (startUp env).geomLines ∧ WholePatches (startUp env).geomQuad)
    ∧ (∀ (env : Env) (s : State) (k : Key) (b : Bucket), b ∈ uploads k →
        WholePatches (bucketOf (KeyCallback env k s) b)) := by
  refine ⟨?_, ?_⟩
  · intro env
    obtain ⟨h1, h2, _⟩ := startFill_counts env
    exact WholePatches_uploadLinesQuad env 1 0 (startFill env) _ h1 h2
  · intro env s k b hb
    obtain ⟨h1, h2, h3⟩ := fillOf_counts env k
    cases k <;> simp only [uploads, List.mem_cons, List.mem_singleton, List.not_mem_nil,
      or_false] at hb
    case k1 =>
      rcases hb with rfl | rfl | rfl
      · exact WholePatches_upload (ofList verArrayQuad1) (ofList colsQuad1) 16 3 0
          (env.glErrors Bucket.quad) (by decide)
      · exact WholePatches_upload
          (pointsLoop1 (ofList verArrayQuad1) 16 32 0 0 0 env.verArrayPoints)
          (ofList colsQuad1) 64 3 0 (env.glErrors Bucket.points) (by decide)
      · exact WholePatches_upload
          (linesLoop1 (ofList verArrayQuad1) 16 32 0 0 env.verArrayLines)
          (ofList colsQuad1) 32 3 0 (env.glErrors Bucket.lines) (by decide)
    case k2 =>
      rcases hb with rfl | rfl | rfl
      · exact WholePatches_upload (ofList verArrayCubic2) (ofList cols2) 28 7 (-3)
          (env.glErrors Bucket.cubic) (by decide)
      · exact WholePatches_upload
          (pointsLoop2 (ofList verArrayCubic2) 28 56 0 0 env.verArrayPoints)
          (ofList cols2) 112 7 (-3) (env.glErrors Bucket.points) (by decide)
      · exact WholePatches_upload
          (linesLoop2 (ofList verArrayCubic2) 28 56 0 0 0 env.verArrayLines)
          (ofList cols2) 84 7 (-3) (env.glErrors Bucket.lines) (by decide)
    case k3 =>
      have h := WholePatches_uploadLinesQuad env 1 0 (fillOf env Key.k3)
        { s with printPoints := false, printLinear := true, printQuad := true,
                 printCubic := false, scroll := false, awesome := false, text := true } h1 h2
      rcases hb with rfl | rfl
      · exact h.1
      · exact h.2
    case k5 =>
      have h := WholePatches_uploadLinesQuad env 1 0 (fillOf env Key.k5)
        { s with printPoints := false, printLinear := true, printQuad := true,
                 printCubic := false, scroll := false, awesome := false, text := true } h1 h2
      rcases hb with rfl | rfl
      · exact h.1
      · exact h.2
    case k6 =>
      have h := WholePatches_uploadLinesQuad env 1 0 (fillOf env Key.k6)
        { s with printPoints := false, printLinear := true, printQuad := true,
                 printCubic := false, scroll := true, awesome := false, text := true } h1 h2
      rcases hb with rfl | rfl
      · exact h.1
      · exact h.2
    case k7 =>
      have h := WholePatches_uploadLinesQuad env 1 0 (fillOf env Key.k7)
        { s with printPoints := false, printLinear := true, printQuad := true,
                 printCubic := false, scroll := true, awesome := false, text := true } h1 h2
      rcases hb with rfl | rfl
      · exact h.1
      · exact h.2
    case k4 =>
      have h := WholePatches_uploadLinesQuadCubic env 1 0 (fillOf env Key.k4)
        { s with printPoints := false, printLinear := true, printQuad := true,
                 printCubic := true, scroll := false, awesome := false, text := true } h1 h2 h3
      rcases hb with rfl | rfl | rfl
      · exact h.1
      · exact h.2.1
      · exact h.2.2
    case k8 =>
      have h := WholePatches_uploadLinesQuadCubic env 1 0 (fillOf env Key.k8)
        { s with printPoints := false, printLinear := true, printQuad := true,
                 printCubic := true, scroll := true, awesome := false, text := true } h1 h2 h3
      rcases hb with rfl | rfl | rfl
      · exact h.1
      · exact h.2.1
      · exact h.2.2

/-! ## C15: the marker loops of scenes 1 and 2 -/

theorem storeMarker_outside (points : Buffer ℚ) (j : Nat) (x y up down : ℚ) (i : Nat)
    (h : i < j ∨ j + 8 ≤ i) : storeMarker points j x y up down i = points i := by
  have : i ≠ j ∧ i ≠ j + 1 ∧ i ≠ j + 2 ∧ i ≠ j + 3 ∧ i ≠ j + 4 ∧ i ≠ j + 5 ∧ i ≠ j + 6
      ∧ i ≠ j + 7 := by omega
  simp [storeMarker, store, this]

theorem storeMarker_inside (b1 b2 : Buffer ℚ) (j : Nat) (x y up down : ℚ) (i : Nat)
    (h1 : j ≤ i) (h2 : i < j + 8) :
    storeMarker b1 j x y up down i = storeMarker b2 j x y up down i := by
  have : i = j ∨ i = j + 1 ∨ i = j + 2 ∨ i = j + 3 ∨ i = j + 4 ∨ i = j + 5 ∨ i = j + 6
      ∨ i = j + 7 := by omega
  rcases this with rfl | rfl | rfl | rfl | rfl | rfl | rfl | rfl <;> simp [storeMarker, store]

/-- Markers `k`, `k + 1`, .. leave every cell outside their own range alone. -/
theorem markersFrom_outside (src : Buffer ℚ) (up down : ℚ) (l : List Nat) :
    ∀ (k : Nat) (points : Buffer ℚ) (i : Nat), (i < 8 * k ∨ 8 * (k + l.length) ≤ i) →
      markersFrom src up down k l points i = points i := by
  induction l with
  | nil => intro k points i _; rfl
  | cons a rest ih =>
    intro k points i h
    simp only [markersFrom, List.length_cons] at h ⊢
    rw [ih (k + 1) _ i (by omega)]
    exact storeMarker_outside _ _ _ _ _ _ _ (by omega)

/-- Markers `k`, `k + 1`, .. write every cell of their range: what is there
afterwards does not depend on what was there before. -/
theorem markersFrom_inside (src : Buffer ℚ) (up down : ℚ) (l : List Nat) :
    ∀ (k : Nat) (b1 b2 : Buffer ℚ) (i : Nat), 8 * k ≤ i → i < 8 * (k + l.length) →
      markersFrom src up down k l b1 i = markersFrom src up down k l b2 i := by
  induction l with
  | nil => intro k b1 b2 i h1 h2; simp at h2; omega
  | cons a rest ih =>
    intro k b1 b2 i h1 h2
    simp only [markersFrom, List.length_cons] at h2 ⊢
    by_cases hi : i < 8 * k + 8
    · rw [markersFrom_outside src up down rest (k + 1) _ i (Or.inl (by omega)),
        markersFrom_outside src up down rest (k + 1) _ i (Or.inl (by omega))]
      exact storeMarker_inside _ _ _ _ _ _ _ _ h1 hi
    · exact ih (k + 1) _ _ i (by omega) (by omega)

/-- The marker loop of key 1 ends by its own test after 12 markers, whatever
iteration bound of at least 13 it is given. -/
theorem pointsLoop1_markers (quad points : Buffer ℚ) (n : Nat) :
    pointsLoop1 quad 16 (n + 13) 0 0 0 points
      = markersFrom quad (1/10) (1/20) 0 markerSources1 points := rfl

/-- The marker loop of key 2 ends by its own test after 28 markers, whatever
iteration bound of at least 29 it is given. -/
theorem pointsLoop2_markers (cubic points : Buffer ℚ) (n : Nat) :
    pointsLoop2 cubic 28 (n + 29) 0 0 points
      = markersFrom cubic (1/10) (1/10) 0 markerSources2 points := rfl

/-- C15 fails for scene 1. Key 1 uploads 64 marker vertices, that is 128 floats of
`verArrayPoints`, but its marker loop builds only 12 markers (it skips the pad
point of each curve) and writes the floats 0 to 95: the floats 96 to 127 keep the
indeterminate initial content of the array, and vertex 48 of the uploaded bucket
is computed from it. In scene 2 the loop builds 28 markers and writes all 224
floats that the upload of 112 vertices reads. -/
theorem key1_uploads_unwritten_markers :
    (∀ (env : Env) (s : State),
      (KeyCallback env Key.k1 s).geomPoints
        = (InitializeGeometry
            (pointsLoop1 (ofList verArrayQuad1) 16 (16 * 2) 0 0 0 env.verArrayPoints)
            (ofList colsQuad1) (16 * 4) 3 0 (env.glErrors Bucket.points)).1)
    ∧ (∀ (quad points : Buffer ℚ) (i : Nat), 96 ≤ i →
        pointsLoop1 quad 16 (16 * 2) 0 0 0 points i = points i)
    ∧ (∀ (quad b1 b2 : Buffer ℚ) (i : Nat), i < 96 →
        pointsLoop1 quad 16 (16 * 2) 0 0 0 b1 i = pointsLoop1 quad 16 (16 * 2) 0 0 0 b2 i)
    ∧ (∀ (env : Env) (s : State),
        (KeyCallback env Key.k1 s).geomPoints.vertices[48]?
          = some ((env.verArrayPoints 96 + 0) / 3, (env.verArrayPoints 97 + 0) / 3))
    ∧ (KeyCallback (staleEnv 0) Key.k1 (startUp quietEnv)).geomPoints.vertices[48]?
        ≠ (KeyCallback (staleEnv 3) Key.k1 (startUp quietEnv)).geomPoints.vertices[48]?
    ∧ (∀ (env : Env) (s : State),
        (KeyCallback env Key.k2 s).geomPoints
          = (InitializeGeometry
              (pointsLoop2 (ofList verArrayCubic2) 28 (28 * 2) 0 0 env.verArrayPoints)
              (ofList cols2) (28 * 4) 7 (-3) (env.glErrors Bucket.points)).1)
    ∧ (∀ (cubic b1 b2 : Buffer ℚ) (i : Nat), i < 2 * (28 * 4) →
        pointsLoop2 cubic 28 (28 * 2) 0 0 b1 i = pointsLoop2 cubic 28 (28 * 2) 0 0 b2 i) := by
  have h48 : ∀ (env : Env) (s : State),
      (KeyCallback env Key.k1 s).geomPoints.vertices[48]?
        = some ((env.verArrayPoints 96 + 0) / 3, (env.verArrayPoints 97 + 0) / 3) := by
    intro env s
    have e : (KeyCallback env Key.k1 s).geomPoints.vertices
        = (List.range 64).map (fun i =>
            ((pointsLoop1 (ofList verArrayQuad1) 16 (19 + 13) 0 0 0 env.verArrayPoints (2 * i)
                + 0) / 3,
             (pointsLoop1 (ofList verArrayQuad1) 16 (19 + 13) 0 0 0 env.verArrayPoints
                (2 * i + 1) + 0) / 3)) := rfl
    rw [e, pointsLoop1_markers]
    simp only [List.getElem?_map, List.getElem?_range (by decide : 48 < 64), Option.map_some']
    rw [markersFrom_outside _ _ _ _ _ _ _ (Or.inr (by decide)),
      markersFrom_outside _ _ _ _ _ _ _ (Or.inr (by decide))]
  refine ⟨fun _ _ => rfl, ?_, ?_, h48, ?_, fun _ _ => rfl, ?_⟩
  · intro quad points i hi
    have e := pointsLoop1_markers quad points 19
    rw [show pointsLoop1 quad 16 (16 * 2) 0 0 0 points
        = pointsLoop1 quad 16 (19 + 13) 0 0 0 points from rfl, e]
    exact markersFrom_outside _ _ _ _ _ _ _ (Or.inr (by simpa [markerSources1] using hi))
  · intro quad b1 b2 i hi
    rw [show pointsLoop1 quad 16 (16 * 2) 0 0 0 b1
        = pointsLoop1 quad 16 (19 + 13) 0 0 0 b1 from rfl,
      show pointsLoop1 quad 16 (16 * 2) 0 0 0 b2
        = pointsLoop1 quad 16 (19 + 13) 0 0 0 b2 from rfl,
      pointsLoop1_markers, pointsLoop1_markers]
    exact markersFrom_inside _ _ _ _ _ _ _ _ (by omega) (by simpa [markerSources1] using hi)
  · rw [h48, h48]
    simp [staleEnv]
  · intro cubic b1 b2 i hi
    rw [show pointsLoop2 cubic 28 (28 * 2) 0 0 b1
        = pointsLoop2 cubic 28 (27 + 29) 0 0 b1 from rfl,
      show pointsLoop2 cubic 28 (28 * 2) 0 0 b2
        = pointsLoop2 cubic 28 (27 + 29) 0 0 b2 from rfl,
      pointsLoop2_markers, pointsLoop2_markers]
    exact markersFrom_inside _ _ _ _ _ _ _ _ (by omega) (by simpa [markerSources2] using hi)

/-! ## C16: visible buckets and the scene that filled them -/

theorem frame_keeps_flags (measured : Option ℚ) (pending : List GLError) (s : State) :
    sceneFlags (frame measured pending s) = sceneFlags s := by
  unfold frame
  rw [RenderScene_sceneFlags]
  have h1 : sceneFlags (scrollUpdate (measureFps measured s))
      = sceneFlags (measureFps measured s) := by
    simp only [scrollUpdate]
    split_ifs <;> rfl
  rw [h1]
  cases measured <;> rfl

theorem visible_of_flags (s t : State) (h : sceneFlags s = sceneFlags t) :
    visible s = visible t := by
  simp only [sceneFlags, Prod.mk.injEq] at h
  obtain ⟨h1, h2, h3, h4, _⟩ := h
  funext b
  cases b <;> simp [visible, h1, h2, h3, h4]

theorem false_true_absurd {P : Prop} (h : (false : Bool) = true) : P := by cases h

theorem true_false_absurd {P : Prop} (h : (true : Bool) = false) : P := by cases h

/-- A scene key leaves the state fresh in the way Space cannot break. -/
theorem SpaceProof_scene_key (t : Traced) (env : Env) (k : Key) (hk : k.isScene = true) :
    SpaceProof (t.step (Event.key env k)) := by
  cases k <;> simp only [Key.isScene] at hk <;>
    first
    | exact false_true_absurd hk
    | (refine ⟨?_, ?_⟩
       · intro b hb
         cases b <;> first
           | rfl
           | exact false_true_absurd hb
       · intro h1 h2
         first
           | exact ⟨rfl, rfl⟩
           | exact true_false_absurd h1
           | exact true_false_absurd h2)

/-- Space keeps that freshness. -/
theorem SpaceProof_space (t : Traced) (env : Env) (h : SpaceProof t) :
    SpaceProof (t.step (Event.key env Key.space)) := by
  obtain ⟨hf, hs⟩ := h
  obtain ⟨st, sc, fi⟩ := t
  obtain ⟨c, bt, pp, pl, pq, pc, scr, aw, tx, sf, ss, sb, fp, g1, g2, g3, g4, w, l⟩ := st
  simp only [Fresh, SpaceProof, Traced.step, KeyCallback, keySpace, uploads, Key.isScene,
    List.not_mem_nil, if_false] at hf hs ⊢
  have hP := hf Bucket.points
  have hL := hf Bucket.lines
  have hQ := hf Bucket.quad
  have hC := hf Bucket.cubic
  cases scr <;> cases tx <;> cases pp <;> cases pl <;> cases aw <;>
    simp_all [visible] <;>
    (intro b hb; cases b <;> simp_all [visible])

/-- The remaining keys and the frames keep it too. -/
theorem SpaceProof_step (t : Traced) (e : Event) (h : SpaceProof t) :
    SpaceProof (t.step e) := by
  cases e with
  | key env k =>
    cases hk : k.isScene with
    | true => exact SpaceProof_scene_key t env k hk
    | false =>
      cases k <;> simp only [Key.isScene] at hk <;>
        first
        | exact true_false_absurd hk
        | exact SpaceProof_space t env h
        | exact h
  | frame measured pending =>
    obtain ⟨hf, hs⟩ := h
    have hfl := frame_keeps_flags measured pending t.state
    have hv := visible_of_flags _ _ hfl
    simp only [sceneFlags, Prod.mk.injEq] at hfl
    refine ⟨?_, ?_⟩
    · intro b hb
      have hb2 : visible (frame measured pending t.state) b = true := hb
      rw [hv] at hb2
      exact hf b hb2
    · intro h1 h2
      have h1b : (frame measured pending t.state).scroll = false := h1
      have h2b : (frame measured pending t.state).text = false := h2
      rw [hfl.2.2.2.2.1] at h1b
      rw [hfl.2.2.2.2.2.1] at h2b
      exact hs h1b h2b

theorem SpaceProof_foldl (events : List Event) :
    ∀ t : Traced, SpaceProof t → SpaceProof (events.foldl Traced.step t) := by
  induction events with
  | nil => intro t h; exact h
  | cons e es ih => intro t h; exact ih _ (SpaceProof_step t e h)

/-- C16 fails after Space at start-up. Start-up fills only the line and the
quadratic bucket and leaves `text` unset, so a press of Space before any scene key
makes the point-marker bucket visible although no scene ever filled it:
`RenderScene` then issues a draw for it. Start-up itself is fresh, and so is
every state of a run in which a scene key has been pressed. -/
theorem space_at_startUp_shows_unfilled_bucket :
    (∀ env : Env, Fresh (Traced.start env))
    ∧ (∀ env : Env,
        visible (Traced.run env [Event.key env Key.space]).state Bucket.points = true
        ∧ (Traced.run env [Event.key env Key.space]).filledIn Bucket.points = none
        ∧ (Traced.run env [Event.key env Key.space]).state.geomPoints = MyGeometry.empty
        ∧ (Bucket.points, 0)
            ∈ (RenderScene [] (Traced.run env [Event.key env Key.space]).state).2
        ∧ ¬ Fresh (Traced.run env [Event.key env Key.space]))
    ∧ (∀ (env env1 : Env) (before after : List Event) (k : Key), k.isScene = true →
        Fresh (Traced.run env (before ++ Event.key env1 k :: after))) := by
  refine ⟨?_, ?_, ?_⟩
  · intro env b hb
    cases b <;> first
      | rfl
      | exact false_true_absurd hb
  · intro env
    have hv : visible (Traced.run env [Event.key env Key.space]).state Bucket.points = true :=
      rfl
    have hn : (Traced.run env [Event.key env Key.space]).filledIn Bucket.points = none := rfl
    refine ⟨hv, hn, rfl, ?_, ?_⟩
    · rw [RenderScene_draws]
      simp only [drawOrder, List.mem_filter, List.mem_cons, List.mem_singleton]
      exact ⟨by simp, hv⟩
    · intro hF
      have := hF Bucket.points hv
      rw [hn] at this
      cases this
  · intro env env1 before after k hk
    unfold Traced.run
    rw [List.foldl_append, List.foldl_cons]
    exact (SpaceProof_foldl after _ (SpaceProof_scene_key _ env1 k hk)).1

/-! ## C13, C14: what the uploaded streams depend on -/

theorem slots_pointwise (b1 b2 : Buffer ℚ) (lo n : Nat)
    (h : slots b1 lo n = slots b2 lo n) :
    ∀ i, lo ≤ i → i < lo + 2 * n → b1 i = b2 i := by
  intro i h1 h2
  unfold slots at h
  have hk := List.map_inj_left.mp h ((i - lo) / 2) (List.mem_range.mpr (by omega))
  simp only [Prod.mk.injEq] at hk
  rcases Nat.mod_two_eq_zero_or_one (i - lo) with hp | hp
  · have e : lo + 2 * ((i - lo) / 2) = i := by omega
    rw [e] at hk
    exact hk.1
  · have e : lo + 2 * ((i - lo) / 2) + 1 = i := by omega
    rw [e] at hk
    exact hk.2

/-- Packing a glyph keeps two states in agreement where they have been written. -/
theorem glyphToGeom_agree (glyph : MyGlyph ℚ) (scale xTrans yTrans : ℚ)
    (a b : PackState ℚ) (h : AgreeBelow a b) :
    AgreeBelow (glyphToGeom glyph scale xTrans yTrans a)
      (glyphToGeom glyph scale xTrans yTrans b) := by
  intro d hd
  obtain ⟨hc, hv⟩ := h d hd
  obtain ⟨ac, as, au⟩ := glyphToGeom_degree glyph scale xTrans yTrans d hd a
  obtain ⟨bc, bs, bu⟩ := glyphToGeom_degree glyph scale xTrans yTrans d hd b
  refine ⟨by rw [ac, bc, hc], ?_⟩
  intro i hi
  by_cases hlt : i < a.cntOf d
  · rw [au i (Or.inl hlt), bu i (Or.inl (by rw [← hc]; exact hlt))]
    exact hv i hlt
  · rw [← hc] at bs
    exact slots_pointwise _ _ _ _ (as.trans bs.symm) i (by omega) (by rw [ac] at hi; omega)

theorem layoutKerned_agree (scale start yTrans kern : ℚ) (glyphs : List (MyGlyph ℚ)) :
    ∀ (adv : ℚ) (a b : PackState ℚ), AgreeBelow a b →
      AgreeBelow (layoutKerned scale start yTrans kern glyphs adv a).2
        (layoutKerned scale start yTrans kern glyphs adv b).2 := by
  induction glyphs with
  | nil => intro adv a b h; exact h
  | cons g gs ih =>
    intro adv a b h
    rw [layoutKerned_cons, layoutKerned_cons]
    exact ih _ _ _ (glyphToGeom_agree g scale (start + adv) yTrans a b h)

theorem freshArrays_agree (env1 env2 : Env) :
    AgreeBelow (freshArrays env1) (freshArrays env2) := by
  intro d hd
  rcases hd with rfl | rfl | rfl <;>
    exact ⟨rfl, fun i hi => absurd hi (Nat.not_lt_zero i)⟩

/-- The fill pass of a glyph scene key gives the same counters and the same written
content for the same font, whatever the arrays held before. -/
theorem fillOf_agree (env1 env2 : Env) (k : Key) (hf : env1.font = env2.font) :
    AgreeBelow (fillOf env1 k) (fillOf env2 k) := by
  cases k <;> simp only [fillOf, hf, layoutPlain_eq_kerned] <;>
    first
    | exact layoutKerned_agree _ _ _ _ _ _ _ _ (freshArrays_agree env1 env2)
    | exact freshArrays_agree env1 env2

/-- The vertex stream uploaded from a packed array depends only on what was
written into it. -/
theorem vertices_agree (a b : PackState ℚ) (h : AgreeBelow a b) (d : Nat)
    (hd : d = 1 ∨ d = 2 ∨ d = 3) (c1 c2 : Buffer ℚ) (scale transform : ℚ)
    (e1 e2 : List GLError) :
    (InitializeGeometry (a.bufOf d) c1 (a.cntOf d / 2) scale transform e1).1.vertices
      = (InitializeGeometry (b.bufOf d) c2 (b.cntOf d / 2) scale transform e2).1.vertices := by
  obtain ⟨hc, hv⟩ := h d hd
  simp only [InitializeGeometry]
  rw [← hc]
  apply List.map_congr_left
  intro i hi
  have hi2 : i < a.cntOf d / 2 := List.mem_range.mp hi
  rw [hv (2 * i) (by omega), hv (2 * i + 1) (by omega)]

theorem fillCols_spec (n : Nat) (cols : Buffer ℚ) :
    ∀ i, fillCols n cols i = if i < n then 1 else cols i := by
  induction n with
  | zero => intro i; simp [fillCols]
  | succ n ih =>
    intro i
    have e : fillCols (n + 1) cols = store (fillCols n cols) n 1 := by
      simp [fillCols, List.range_succ, List.foldl_append]
    rw [e]
    unfold store
    by_cases h : i = n
    · simp [h]
    · rw [if_neg h, ih i]
      by_cases h2 : i < n
      · rw [if_pos h2, if_pos (by omega)]
      · rw [if_neg h2, if_neg (by omega)]

/-- The colour stream uploaded from a colour array that holds `g` in every cell
read is `g` throughout. -/
theorem colours_constant (points cols : Buffer ℚ) (n : Nat) (scale transform : ℚ)
    (e : List GLError) (g : ℚ) (h : ∀ i, i < 3 * n → cols i = g) :
    (InitializeGeometry points cols n scale transform e).1.colours
      = List.replicate n (g, g, g) := by
  simp only [InitializeGeometry]
  rw [List.eq_replicate_iff]
  refine ⟨by simp, ?_⟩
  intro x hx
  obtain ⟨i, hi, rfl⟩ := List.mem_map.mp hx
  have hi2 : i < n := List.mem_range.mp hi
  rw [h (3 * i) (by omega), h (3 * i + 1) (by omega), h (3 * i + 2) (by omega)]

/-- The colour loop covers every colour the quadratic bucket reads: its uploaded
colour stream is all ones. -/
theorem quadUpload_colours (env : Env) (k : Key) :
    (quadUpload env k).colours
      = List.replicate ((fillOf env k).quadraticCount / 2) (1, 1, 1) := by
  obtain ⟨_, h2, _⟩ := fillOf_counts env k
  unfold quadUpload
  apply colours_constant
  intro i hi
  rw [fillCols_spec, if_pos]
  unfold colsFilled
  omega

theorem colourReads_mem (n idx : Nat) : idx ∈ colourReads n ↔ idx < 3 * n := by
  unfold colourReads
  simp only [List.mem_flatMap, List.mem_range, List.mem_cons, List.mem_singleton,
    List.not_mem_nil, or_false]
  constructor
  · rintro ⟨i, hi, rfl | rfl | rfl⟩ <;> omega
  · intro h
    refine ⟨idx / 3, by omega, ?_⟩
    omega

/-- The buckets a glyph scene key uploads are the uploads of its fill pass: they do
not depend on the state, and so not on the counters, the command found. -/
theorem glyph_key_uploads (env : Env) (s : State) :
    ((KeyCallback env Key.k3 s).geomLines = linesUpload env Key.k3
      ∧ (KeyCallback env Key.k3 s).geomQuad = quadUpload env Key.k3)
    ∧ ((KeyCallback env Key.k4 s).geomLines = linesUpload env Key.k4
      ∧ (KeyCallback env Key.k4 s).geomQuad = quadUpload env Key.k4
      ∧ (KeyCallback env Key.k4 s).geomCubic = cubicUpload env Key.k4)
    ∧ ((KeyCallback env Key.k5 s).geomLines = linesUpload env Key.k5
      ∧ (KeyCallback env Key.k5 s).geomQuad = quadUpload env Key.k5)
    ∧ ((KeyCallback env Key.k6 s).geomLines = linesUpload env Key.k6
      ∧ (KeyCallback env Key.k6 s).geomQuad = quadUpload env Key.k6)
    ∧ ((KeyCallback env Key.k7 s).geomLines = linesUpload env Key.k7
      ∧ (KeyCallback env Key.k7 s).geomQuad = quadUpload env Key.k7)
    ∧ ((KeyCallback env Key.k8 s).geomLines = linesUpload env Key.k8
      ∧ (KeyCallback env Key.k8 s).geomQuad = quadUpload env Key.k8
      ∧ (KeyCallback env Key.k8 s).geomCubic = cubicUpload env Key.k8) :=
  ⟨⟨rfl, rfl⟩, ⟨rfl, rfl, rfl⟩, ⟨rfl, rfl⟩, ⟨rfl, rfl⟩, ⟨rfl, rfl⟩, ⟨rfl, rfl, rfl⟩⟩

/-- With a font of single line segments key 3 uploads 24 line vertices whose
colours are all read from cells the colour loop never set. -/
theorem linesUpload_lineFont (g : ℚ) :
    (linesUpload (lineFontEnv g) Key.k3).elementCount = 24
    ∧ (linesUpload (lineFontEnv g) Key.k3).colours = List.replicate 24 (g, g, g) := by
  have hc : (fillOf (lineFontEnv g) Key.k3).lineCount = 48 := rfl
  have hq : colsFilled (fillOf (lineFontEnv g) Key.k3) = 0 := by
    have : (fillOf (lineFontEnv g) Key.k3).quadraticCount = 0 := rfl
    simp [colsFilled, this]
  have he : (linesUpload (lineFontEnv g) Key.k3).elementCount
      = (fillOf (lineFontEnv g) Key.k3).lineCount / 2 := rfl
  refine ⟨by rw [he, hc], ?_⟩
  unfold linesUpload
  rw [colours_constant _ _ _ _ _ _ g, hc]
  intro i _
  rw [fillCols_spec, hq, if_neg (Nat.not_lt_zero i)]
  rfl

/-- With a font of single cubic segments key 4 uploads 24 cubic vertices whose
colours are all read from cells the colour loop never set. -/
theorem cubicUpload_cubicFont (g : ℚ) :
    (cubicUpload (cubicFontEnv g) Key.k4).elementCount = 24
    ∧ colsLength Key.k4 (fillOf (cubicFontEnv g) Key.k4) = 72
    ∧ colsFilled (fillOf (cubicFontEnv g) Key.k4) = 0
    ∧ (cubicUpload (cubicFontEnv g) Key.k4).colours = List.replicate 24 (g, g, g) := by
  have hc : (fillOf (cubicFontEnv g) Key.k4).cubicCount = 48 := rfl
  have hq : colsFilled (fillOf (cubicFontEnv g) Key.k4) = 0 := by
    have : (fillOf (cubicFontEnv g) Key.k4).quadraticCount = 0 := rfl
    simp [colsFilled, this]
  have he : (cubicUpload (cubicFontEnv g) Key.k4).elementCount
      = (fillOf (cubicFontEnv g) Key.k4).cubicCount / 2 := rfl
  refine ⟨by rw [he, hc], by simp [colsLength, hc], hq, ?_⟩
  unfold cubicUpload
  rw [colours_constant _ _ _ _ _ _ g, hc]
  intro i _
  rw [fillCols_spec, hq, if_neg (Nat.not_lt_zero i)]
  rfl

/-- C13 fails for the colour streams. Key 3 run twice on the same outlines (a font
of single line segments), the two runs differing only in the indeterminate
content of the local arrays (0 against 1), uploads different colour streams for
the line bucket: the colour array is sized and filled by `quadraticCount`, here 0,
and read for 24 line vertices. What is deterministic: for the same font, every
glyph scene key uploads the same vertex stream for the line, quadratic and cubic
buckets and the same colour stream for the quadratic bucket, whatever the arrays
held before and whatever state and counters the command found. -/
theorem repacking_colours_depend_on_stale_memory :
    ((lineFontEnv 0).font = (lineFontEnv 1).font
      ∧ ∀ s1 s2 : State,
        (KeyCallback (lineFontEnv 0) Key.k3 s1).geomLines.colours
            = List.replicate 24 (0, 0, 0)
        ∧ (KeyCallback (lineFontEnv 1) Key.k3 s2).geomLines.colours
            = List.replicate 24 (1, 1, 1)
        ∧ (KeyCallback (lineFontEnv 0) Key.k3 s1).geomLines.colours
            ≠ (KeyCallback (lineFontEnv 1) Key.k3 s2).geomLines.colours)
    ∧ (∀ (env1 env2 : Env) (k : Key), env1.font = env2.font →
        (linesUpload env1 k).vertices = (linesUpload env2 k).vertices
        ∧ (quadUpload env1 k).vertices = (quadUpload env2 k).vertices
        ∧ (cubicUpload env1 k).vertices = (cubicUpload env2 k).vertices
        ∧ (quadUpload env1 k).colours = (quadUpload env2 k).colours)
    ∧ (∀ (env : Env) (s1 s2 : State),
        (KeyCallback env Key.k3 s1).geomLines = (KeyCallback env Key.k3 s2).geomLines
        ∧ (KeyCallback env Key.k3 s1).geomQuad = (KeyCallback env Key.k3 s2).geomQuad
        ∧ (KeyCallback env Key.k3 s1).toCounters = (KeyCallback env Key.k3 s2).toCounters) := by
  refine ⟨⟨rfl, ?_⟩, ?_, fun _ _ _ => ⟨rfl, rfl, rfl⟩⟩
  · intro s1 s2
    have h0 : (KeyCallback (lineFontEnv 0) Key.k3 s1).geomLines.colours
        = List.replicate 24 (0, 0, 0) := (linesUpload_lineFont 0).2
    have h1 : (KeyCallback (lineFontEnv 1) Key.k3 s2).geomLines.colours
        = List.replicate 24 (1, 1, 1) := (linesUpload_lineFont 1).2
    refine ⟨h0, h1, ?_⟩
    rw [h0, h1]
    intro h
    have h2 := congrArg List.head? h
    simp [List.replicate] at h2
  · intro env1 env2 k hf
    have ha := fillOf_agree env1 env2 k hf
    refine ⟨?_, ?_, ?_, ?_⟩
    · exact vertices_agree _ _ ha 1 (Or.inl rfl) _ _ 1 0 _ _
    · exact vertices_agree _ _ ha 2 (Or.inr (Or.inl rfl)) _ _ 1 0 _ _
    · exact vertices_agree _ _ ha 3 (Or.inr (Or.inr rfl)) _ _ 1 0 _ _
    · rw [quadUpload_colours, quadUpload_colours]
      have hq : (fillOf env1 k).quadraticCount = (fillOf env2 k).quadraticCount :=
        (ha 2 (Or.inr (Or.inl rfl))).1
      rw [hq]

/-- C14 fails for the line and the cubic bucket. With a font of single line
segments key 3 declares and fills a colour array of length 0
(`quadraticCount * 3 / 2`) and has `InitializeGeometry` read the colours of 24 line
vertices from it: every index read, 0 included, lies outside the array and outside
the filled range, and the uploaded colours are whatever memory held. With a font
of single cubic segments key 4 declares the array with 72 cells
(`cubicCount * 3 / 2`) but fills none of them. For the quadratic bucket every index
read lies inside the filled range, in every glyph scene key and for every font. -/
theorem colour_reads_outside_filled_range :
    (∀ g : ℚ,
      (linesUpload (lineFontEnv g) Key.k3).elementCount = 24
      ∧ colsLength Key.k3 (fillOf (lineFontEnv g) Key.k3) = 0
      ∧ colsFilled (fillOf (lineFontEnv g) Key.k3) = 0
      ∧ 0 ∈ colourReads (linesUpload (lineFontEnv g) Key.k3).elementCount
      ∧ (∀ idx, idx ∈ colourReads (linesUpload (lineFontEnv g) Key.k3).elementCount →
          ¬ idx < colsLength Key.k3 (fillOf (lineFontEnv g) Key.k3)
          ∧ ¬ idx < colsFilled (fillOf (lineFontEnv g) Key.k3))
      ∧ ∀ s : State,
          (KeyCallback (lineFontEnv g) Key.k3 s).geomLines.colours
            = List.replicate 24 (g, g, g))
    ∧ (∀ g : ℚ,
      (cubicUpload (cubicFontEnv g) Key.k4).elementCount = 24
      ∧ colsLength Key.k4 (fillOf (cubicFontEnv g) Key.k4) = 72
      ∧ colsFilled (fillOf (cubicFontEnv g) Key.k4) = 0
      ∧ (∀ idx, idx ∈ colourReads (cubicUpload (cubicFontEnv g) Key.k4).elementCount →
          idx < colsLength Key.k4 (fillOf (cubicFontEnv g) Key.k4)
          ∧ ¬ idx < colsFilled (fillOf (cubicFontEnv g) Key.k4))
      ∧ ∀ s : State,
          (KeyCallback (cubicFontEnv g) Key.k4 s).geomCubic.colours
            = List.replicate 24 (g, g, g))
    ∧ (∀ (env : Env) (k : Key) (idx : Nat),
        idx ∈ colourReads (quadUpload env k).elementCount →
          idx < colsFilled (fillOf env k)) := by
  refine ⟨?_, ?_, ?_⟩
  · intro g
    obtain ⟨he, hcol⟩ := linesUpload_lineFont g
    have hq : (fillOf (lineFontEnv g) Key.k3).quadraticCount = 0 := rfl
    have hl : colsLength Key.k3 (fillOf (lineFontEnv g) Key.k3) = 0 := by
      simp [colsLength, hq]
    have hf : colsFilled (fillOf (lineFontEnv g) Key.k3) = 0 := by
      simp [colsFilled, hq]
    refine ⟨he, hl, hf, ?_, ?_, fun s => hcol⟩
    · rw [he, colourReads_mem]
      decide
    · intro idx _
      rw [hl, hf]
      exact ⟨Nat.not_lt_zero idx, Nat.not_lt_zero idx⟩
  · intro g
    obtain ⟨he, hl, hf, hcol⟩ := cubicUpload_cubicFont g
    refine ⟨he, hl, hf, ?_, fun s => hcol⟩
    intro idx hidx
    rw [he, colourReads_mem] at hidx
    rw [hl, hf]
    exact ⟨by omega, Nat.not_lt_zero idx⟩
  · intro env k idx hidx
    obtain ⟨_, h2, _⟩ := fillOf_counts env k
    have he : (quadUpload env k).elementCount = (fillOf env k).quadraticCount / 2 := rfl
    rw [he, colourReads_mem] at hidx
    unfold colsFilled
    omega

/-! ## C3: where the layout loops store each shape -/

theorem layoutKerned_fst (scale start yTrans kern : ℚ) (gs : List (MyGlyph ℚ)) :
    ∀ (adv : ℚ) (st : PackState ℚ),
      (layoutKerned scale start yTrans kern gs adv st).1
        = adv + (gs.map (fun g => g.advance - kern)).sum := by
  induction gs with
  | nil => intro adv st; simp [layoutKerned]
  | cons g gs ih =>
    intro adv st
    rw [layoutKerned_cons, ih]
    simp only [List.map_cons, List.sum_cons]
    ring

theorem layoutKerned_append (scale start yTrans kern : ℚ) (a b : List (MyGlyph ℚ))
    (adv : ℚ) (st : PackState ℚ) :
    layoutKerned scale start yTrans kern (a ++ b) adv st
      = layoutKerned scale start yTrans kern b
          (layoutKerned scale start yTrans kern a adv st).1
          (layoutKerned scale start yTrans kern a adv st).2 := by
  simp [layoutKerned, List.foldl_append]

/-- The cells in which the kerned layout loop leaves shape `g`, laid out after the
shapes `pre` and before the shapes `post`: for each degree they follow the cells of
the earlier shapes and hold the records of `g` packed with x-translation
`start + sum over the earlier shapes of (advance - kern)` and y-translation
`yTrans`. -/
theorem layoutKerned_stores_shape (scale start yTrans kern : ℚ)
    (pre post : List (MyGlyph ℚ)) (g : MyGlyph ℚ) (d : Nat) (hd : d = 1 ∨ d = 2 ∨ d = 3)
    (st : PackState ℚ) :
    slots ((layoutKerned scale start yTrans kern (pre ++ g :: post) 0 st).2.bufOf d)
        (st.cntOf d + 8 * segmentTotal pre d) (4 * (segmentsOfDegree g d).length)
      = (segmentsOfDegree g d).flatMap
          (patchRecord scale (shapeTranslation start kern (pre ++ g :: post) pre.length)
            yTrans d) := by
  rw [layoutKerned_append, layoutKerned_cons]
  obtain ⟨pc, _⟩ := layoutKerned_total scale start yTrans kern d hd pre 0 st
  have p1 := layoutKerned_fst scale start yTrans kern pre 0 st
  obtain ⟨qc, qs, _⟩ := glyphToGeom_degree g scale
    (start + (layoutKerned scale start yTrans kern pre 0 st).1) yTrans d hd
    (layoutKerned scale start yTrans kern pre 0 st).2
  obtain ⟨_, fu⟩ := layoutKerned_total scale start yTrans kern d hd post
    ((layoutKerned scale start yTrans kern pre 0 st).1 + (g.advance - kern))
    (glyphToGeom g scale (start + (layoutKerned scale start yTrans kern pre 0 st).1) yTrans
      (layoutKerned scale start yTrans kern pre 0 st).2)
  have ht : shapeTranslation start kern (pre ++ g :: post) pre.length
      = start + (layoutKerned scale start yTrans kern pre 0 st).1 := by
    rw [p1]
    simp [shapeTranslation, List.take_left]
  rw [ht, ← qs, ← pc]
  apply slots_congr
  intro i _ hi
  exact fu i (Or.inl (by rw [qc]; omega))


/-- What the loop without kerning correction stores for two shapes with advances
0.5 and 0.3 laid out from 0: for each degree the records of the first shape,
packed with x-translation 0, and after them the records of the second shape,
packed with x-translation 0.5. -/
theorem layoutPlain_two_shapes (scale yTrans : ℚ) (c1 c2 : List (MyContour ℚ))
    (st : PackState ℚ) (d : Nat) (hd : d = 1 ∨ d = 2 ∨ d = 3) :
    slots ((layoutPlain scale 0 yTrans [⟨c1, 1/2⟩, ⟨c2, 3/10⟩] 0 st).2.bufOf d) (st.cntOf d)
        (4 * (segmentsOfDegree (⟨c1, 1/2⟩ : MyGlyph ℚ) d).length)
      = (segmentsOfDegree (⟨c1, 1/2⟩ : MyGlyph ℚ) d).flatMap (patchRecord scale 0 yTrans d)
    ∧ slots ((layoutPlain scale 0 yTrans [⟨c1, 1/2⟩, ⟨c2, 3/10⟩] 0 st).2.bufOf d)
        (st.cntOf d + 8 * (segmentsOfDegree (⟨c1, 1/2⟩ : MyGlyph ℚ) d).length)
        (4 * (segmentsOfDegree (⟨c2, 3/10⟩ : MyGlyph ℚ) d).length)
      = (segmentsOfDegree (⟨c2, 3/10⟩ : MyGlyph ℚ) d).flatMap
          (patchRecord scale (1/2) yTrans d) := by
  rw [layoutPlain_eq_kerned]
  have h1 := layoutKerned_stores_shape scale 0 yTrans 0 [] [⟨c2, 3/10⟩] ⟨c1, 1/2⟩ d hd st
  have h2 := layoutKerned_stores_shape scale 0 yTrans 0 [⟨c1, 1/2⟩] [] ⟨c2, 3/10⟩ d hd st
  have t1 : shapeTranslation 0 0 ([] ++ (⟨c1, 1/2⟩ : MyGlyph ℚ) :: [⟨c2, 3/10⟩])
      ([] : List (MyGlyph ℚ)).length = 0 := by
    simp [shapeTranslation]
  have t2 : shapeTranslation 0 0 ([(⟨c1, 1/2⟩ : MyGlyph ℚ)] ++ (⟨c2, 3/10⟩ : MyGlyph ℚ) :: [])
      [(⟨c1, 1/2⟩ : MyGlyph ℚ)].length = 1/2 := by
    simp [shapeTranslation]
  have s1 : segmentTotal ([] : List (MyGlyph ℚ)) d = 0 := by simp [segmentTotal]
  have s2 : segmentTotal [(⟨c1, 1/2⟩ : MyGlyph ℚ)] d
      = (segmentsOfDegree (⟨c1, 1/2⟩ : MyGlyph ℚ) d).length := by simp [segmentTotal]
  rw [t1, s1] at h1
  rw [t2, s2] at h2
  exact ⟨h1, h2⟩

/-- C3. In the layout loops the x-translation handed to the packer for shape `n`
is `start + sum over i < n of (advance i - kern)` and the y-translation is the same
for every shape: the kerned loop (keys 3 to 6) run from `adv = 0` packs exactly as
the layout rule says, and the loop without correction (keys 7, 8, start-up) does so
with `kern = 0`. The coordinates stored say the same: in the arrays the loop leaves,
the cells of each shape hold its control points moved by that translation and
scaled. For two shapes with advances 0.5 and 0.3 laid out from 0 with no
correction, the first is packed with x-translation 0 and the second with 0.5: every
stored x of the second shape is `(x + 1/2) * scale`, and two unit lines at scale
1 are stored as (0,0),(1,0) and (1/2,0),(3/2,0), each followed by its own pad
points. -/
theorem layout_translation_is_advance_sum :
    (∀ (scale start yTrans kern : ℚ) (glyphs : List (MyGlyph ℚ)) (st : PackState ℚ),
      (layoutKerned scale start yTrans kern glyphs 0 st).2
        = layoutByRule scale start yTrans kern glyphs 0 glyphs st)
    ∧ (∀ (scale start yTrans : ℚ) (glyphs : List (MyGlyph ℚ)) (st : PackState ℚ),
      (layoutPlain scale start yTrans glyphs 0 st).2
        = layoutByRule scale start yTrans 0 glyphs 0 glyphs st)
    ∧ (∀ (start kern : ℚ) (glyphs : List (MyGlyph ℚ)) (n : Nat),
      shapeTranslation start kern glyphs n
        = start + ∑ i in Finset.range (min n glyphs.length),
            ((glyphs.getD i ⟨[], 0⟩).advance - kern))
    ∧ (∀ (scale yTrans : ℚ) (c1 c2 : List (MyContour ℚ)) (st : PackState ℚ),
      (layoutPlain scale 0 yTrans [⟨c1, 1/2⟩, ⟨c2, 3/10⟩] 0 st).2
        = glyphToGeom ⟨c2, 3/10⟩ scale (1/2) yTrans (glyphToGeom ⟨c1, 1/2⟩ scale 0 yTrans st))
    ∧ (∀ (scale start yTrans kern : ℚ) (pre post : List (MyGlyph ℚ)) (g : MyGlyph ℚ)
        (d : Nat) (st : PackState ℚ), (d = 1 ∨ d = 2 ∨ d = 3) →
      slots ((layoutKerned scale start yTrans kern (pre ++ g :: post) 0 st).2.bufOf d)
          (st.cntOf d + 8 * segmentTotal pre d) (4 * (segmentsOfDegree g d).length)
        = (segmentsOfDegree g d).flatMap
            (patchRecord scale (shapeTranslation start kern (pre ++ g :: post) pre.length)
              yTrans d))
    ∧ (∀ (scale start yTrans : ℚ) (pre post : List (MyGlyph ℚ)) (g : MyGlyph ℚ)
        (d : Nat) (st : PackState ℚ), (d = 1 ∨ d = 2 ∨ d = 3) →
      slots ((layoutPlain scale start yTrans (pre ++ g :: post) 0 st).2.bufOf d)
          (st.cntOf d + 8 * segmentTotal pre d) (4 * (segmentsOfDegree g d).length)
        = (segmentsOfDegree g d).flatMap
            (patchRecord scale (shapeTranslation start 0 (pre ++ g :: post) pre.length)
              yTrans d))
    ∧ (∀ (scale yTrans : ℚ) (c1 c2 : List (MyContour ℚ)) (st : PackState ℚ) (d : Nat),
        (d = 1 ∨ d = 2 ∨ d = 3) →
      slots ((layoutPlain scale 0 yTrans [⟨c1, 1/2⟩, ⟨c2, 3/10⟩] 0 st).2.bufOf d) (st.cntOf d)
          (4 * (segmentsOfDegree (⟨c1, 1/2⟩ : MyGlyph ℚ) d).length)
        = (segmentsOfDegree (⟨c1, 1/2⟩ : MyGlyph ℚ) d).flatMap (patchRecord scale 0 yTrans d)
      ∧ slots ((layoutPlain scale 0 yTrans [⟨c1, 1/2⟩, ⟨c2, 3/10⟩] 0 st).2.bufOf d)
          (st.cntOf d + 8 * (segmentsOfDegree (⟨c1, 1/2⟩ : MyGlyph ℚ) d).length)
          (4 * (segmentsOfDegree (⟨c2, 3/10⟩ : MyGlyph ℚ) d).length)
        = (segmentsOfDegree (⟨c2, 3/10⟩ : MyGlyph ℚ) d).flatMap
            (patchRecord scale (1/2) yTrans d))
    ∧ (∀ (scale yTrans : ℚ) (c1 : List (MyContour ℚ)) (x y : Fin 4 → ℚ) (st : PackState ℚ),
      slots (layoutPlain scale 0 yTrans
            [⟨c1, 1/2⟩, ⟨[[{ degree := 1, x := x, y := y }]], 3/10⟩] 0 st).2.verLines
          (st.lineCount + 8 * (segmentsOfDegree (⟨c1, 1/2⟩ : MyGlyph ℚ) 1).length) 4
        = [((x 0 + 1/2) * scale, (y 0 + yTrans) * scale),
           ((x 1 + 1/2) * scale, (y 1 + yTrans) * scale),
           ((0 + 1/2) * scale, (0 + yTrans) * scale),
           ((0 + 1/2) * scale, (0 + yTrans) * scale)])
    ∧ (∀ verLines verQuad verCub : Buffer ℚ,
      slots (layoutPlain 1 0 0
            [{ unitLineGlyph with advance := 1/2 }, { unitLineGlyph with advance := 3/10 }] 0
            (packStart verLines verQuad verCub)).2.verLines 0 8
        = [(0, 0), (1, 0), (0, 0), (0, 0), (1/2, 0), (3/2, 0), (1/2, 0), (1/2, 0)]) := by
  refine ⟨?_, ?_, ?_, ?_, ?_, ?_, ?_, ?_, ?_⟩
  · intro scale start yTrans kern glyphs st
    simpa using layoutKerned_rule scale start yTrans kern glyphs [] st
  · intro scale start yTrans glyphs st
    rw [layoutPlain_eq_kerned]
    simpa using layoutKerned_rule scale start yTrans 0 glyphs [] st
  · intro start kern glyphs n
    unfold shapeTranslation
    congr 1
    induction glyphs generalizing n with
    | nil => simp
    | cons g gs ih =>
      cases n with
      | zero => simp
      | succ n =>
        simp only [List.take_succ_cons, List.map_cons, List.sum_cons, List.length_cons,
          Nat.add_min_add_right, Finset.sum_range_succ', List.getD_cons_succ,
          List.getD_cons_zero]
        rw [ih n, add_comm]
  · intro scale yTrans c1 c2 st
    simp [layoutPlain]
  · intro scale start yTrans kern pre post g d st hd
    exact layoutKerned_stores_shape scale start yTrans kern pre post g d hd st
  · intro scale start yTrans pre post g d st hd
    rw [layoutPlain_eq_kerned]
    exact layoutKerned_stores_shape scale start yTrans 0 pre post g d hd st
  · intro scale yTrans c1 c2 st d hd
    exact layoutPlain_two_shapes scale yTrans c1 c2 st d hd
  · intro scale yTrans c1 x y st
    have h := (layoutPlain_two_shapes scale yTrans c1 [[{ degree := 1, x := x, y := y }]] st 1
      (Or.inl rfl)).2
    simpa [PackState.bufOf, PackState.cntOf, segmentsOfDegree, patchRecord, mapPoint,
      padPoint, List.finRange, List.replicate] using h
  · intro verLines verQuad verCub
    simp [layoutPlain, glyphToGeom, unitLineGlyph, packSegment, packStart, slots, store,
      List.range_succ]
    norm_num

end IntroGraphics
